import Mathlib

/-!
Verification of the Underrail save-editor core (`src/web/src/parser/index.ts`
and `src/web/src/state.ts`): a shallow embedding of the byte-buffer reader,
the gzip container framing, the MS-NRBF record decoder with offset tracking,
the field patcher, and the skill projection, together with theorems about
the specified properties.

Buffers (`Uint8Array`) are modelled as `List Nat` of byte values; positions
are `Nat`. JavaScript exceptions (`throw new Error`) are modelled with
`Except`; `DataView` out-of-range accesses become `DecodeErr.outOfBounds`.
-/

namespace Underrail

/-! ## Bytes and little-endian integers -/

/-- Byte of a buffer at index `i` (out of range reads are guarded by bounds
checks before use, so the default is never observable). -/
def byteAt (data : List Nat) (i : Nat) : Nat := data.getD i 0

/-- Unsigned little-endian 16-bit value at `pos`. -/
def getUInt16LE (data : List Nat) (pos : Nat) : Nat :=
  byteAt data pos + 256 * byteAt data (pos + 1)

/-- Unsigned little-endian 32-bit value at `pos`. -/
def getUInt32LE (data : List Nat) (pos : Nat) : Nat :=
  byteAt data pos + 256 * byteAt data (pos + 1) + 65536 * byteAt data (pos + 2) +
    16777216 * byteAt data (pos + 3)

/-- Reinterpret a `Nat` as a signed 16-bit integer (two's complement). -/
def asInt16 (u : Nat) : Int :=
  if u % 2 ^ 16 < 2 ^ 15 then ((u % 2 ^ 16 : Nat) : Int)
  else ((u % 2 ^ 16 : Nat) : Int) - 2 ^ 16

/-- Reinterpret a `Nat` as a signed 32-bit integer (two's complement),
as `DataView.getInt32` does. -/
def asInt32 (u : Nat) : Int :=
  if u % 2 ^ 32 < 2 ^ 31 then ((u % 2 ^ 32 : Nat) : Int)
  else ((u % 2 ^ 32 : Nat) : Int) - 2 ^ 32

/-- Signed little-endian 32-bit value at `pos`. -/
def getInt32LE (data : List Nat) (pos : Nat) : Int := asInt32 (getUInt32LE data pos)

/-- The 32-bit unsigned image of an `Int` (JavaScript `ToUint32`). -/
def toUInt32 (v : Int) : Nat := (v % (2 : Int) ^ 32).toNat

/-- JavaScript 32-bit bitwise or (`a | b`). -/
def jsOr (a b : Int) : Int := asInt32 (Nat.lor (toUInt32 a) (toUInt32 b))

/-- JavaScript 32-bit left shift (`a << k`, shift count taken mod 32). -/
def jsShl (a : Int) (k : Nat) : Int := asInt32 (toUInt32 a * 2 ^ (k % 32))

/-! ## Errors

One error type covering the reader (`RangeError` from `DataView`) and the
NRBF parser's `throw new Error(...)` sites; each constructor keeps the data
the thrown message interpolates.  `outOfFuel` is an artifact of the fuelled
embedding of the parser's recursion and corresponds to no source behaviour. -/

inductive DecodeErr where
  | outOfBounds
  | unknownRecordType (t : Nat) (pos : Nat)
  | unexpectedMemberRecord (t : Nat)
  | unknownPrimitive (t : Nat)
  | unknownPrimitiveInfo
  | unknownClass (metadataId : Int)
  | outOfFuel
deriving DecidableEq, Repr

/-! ## BinaryReader (`class BinaryReader`, parser/index.ts lines 348-479)

Each read takes the buffer and the current position and returns the decoded
value together with the new position, or fails with `outOfBounds` when the
read would cross the end of the buffer (the `DataView` / `Uint8Array`
constructors throw `RangeError` there). -/

def readByte (data : List Nat) (pos : Nat) : Except DecodeErr (Nat × Nat) :=
  if pos + 1 ≤ data.length then .ok (byteAt data pos, pos + 1) else .error .outOfBounds

/-- `readBytes(count)`: the count comes from a (possibly negative) decoded
32-bit integer, and `new Uint8Array(buffer, off, count)` throws on a negative
count as well as on an overrun. -/
def readBytes (data : List Nat) (pos : Nat) (count : Int) : Except DecodeErr (List Nat × Nat) :=
  if 0 ≤ count ∧ pos + count.toNat ≤ data.length then
    .ok ((data.drop pos).take count.toNat, pos + count.toNat)
  else .error .outOfBounds

def readInt16 (data : List Nat) (pos : Nat) : Except DecodeErr (Int × Nat) :=
  if pos + 2 ≤ data.length then .ok (asInt16 (getUInt16LE data pos), pos + 2)
  else .error .outOfBounds

def readUInt16 (data : List Nat) (pos : Nat) : Except DecodeErr (Int × Nat) :=
  if pos + 2 ≤ data.length then .ok ((getUInt16LE data pos : Int), pos + 2)
  else .error .outOfBounds

def readInt32 (data : List Nat) (pos : Nat) : Except DecodeErr (Int × Nat) :=
  if pos + 4 ≤ data.length then .ok (getInt32LE data pos, pos + 4)
  else .error .outOfBounds

def readUInt32 (data : List Nat) (pos : Nat) : Except DecodeErr (Int × Nat) :=
  if pos + 4 ≤ data.length then .ok ((getUInt32LE data pos : Int), pos + 4)
  else .error .outOfBounds

/-- `readInt64`: `BigInt(high signed) * 2^32 + BigInt(low unsigned)`. -/
def readInt64 (data : List Nat) (pos : Nat) : Except DecodeErr (Int × Nat) :=
  if pos + 8 ≤ data.length then
    .ok (asInt32 (getUInt32LE data (pos + 4)) * 2 ^ 32 + (getUInt32LE data pos : Int), pos + 8)
  else .error .outOfBounds

def readUInt64 (data : List Nat) (pos : Nat) : Except DecodeErr (Int × Nat) :=
  if pos + 8 ≤ data.length then
    .ok ((getUInt32LE data (pos + 4) : Int) * 2 ^ 32 + (getUInt32LE data pos : Int), pos + 8)
  else .error .outOfBounds

/-- `readFloat` consumes 4 bytes; the IEEE value is kept as its raw bit
pattern (no float arithmetic is ever performed on it downstream). -/
def readFloat (data : List Nat) (pos : Nat) : Except DecodeErr (Nat × Nat) :=
  if pos + 4 ≤ data.length then .ok (getUInt32LE data pos, pos + 4)
  else .error .outOfBounds

/-- `readDouble` consumes 8 bytes; raw bit pattern, low dword first. -/
def readDouble (data : List Nat) (pos : Nat) : Except DecodeErr (Nat × Nat) :=
  if pos + 8 ≤ data.length then
    .ok (getUInt32LE data pos + 2 ^ 32 * getUInt32LE data (pos + 4), pos + 8)
  else .error .outOfBounds

def readBoolean (data : List Nat) (pos : Nat) : Except DecodeErr (Bool × Nat) :=
  match readByte data pos with
  | .error e => .error e
  | .ok (b, p) => .ok (b != 0, p)

/-- One iteration of `read7BitEncodedInt` consumes one byte, so
`data.length + 1 - pos` iterations always suffice: the fuel-exhausted branch
is unreachable and reports the same error an overrunning `readByte` would. -/
def read7BitAux (data : List Nat) : Nat → Nat → Int → Nat → Except DecodeErr (Int × Nat)
  | 0, _, _, _ => .error .outOfBounds
  | fuel + 1, pos, result, shift =>
    match readByte data pos with
    | .error e => .error e
    | .ok (b, p1) =>
      let result := jsOr result (jsShl ((Nat.land b 0x7f : Nat) : Int) shift)
      if Nat.land b 0x80 ≠ 0 then read7BitAux data fuel p1 result (shift + 7)
      else .ok (result, p1)

def read7BitEncodedInt (data : List Nat) (pos : Nat) : Except DecodeErr (Int × Nat) :=
  read7BitAux data (data.length + 1 - pos) pos 0 0

/-- UTF-8 decoding of a byte slice (`TextDecoder('utf-8')`): maximal valid
sequences decode to their scalar value, anything malformed becomes U+FFFD
and one byte is consumed.  The fuel is the list length; every step consumes
at least one byte. -/
def utf8Aux : Nat → List Nat → List Char
  | 0, _ => []
  | _, [] => []
  | f + 1, b :: rest =>
    if b < 0x80 then Char.ofNat b :: utf8Aux f rest
    else if 0xc2 ≤ b ∧ b ≤ 0xdf then
      match rest with
      | b1 :: rest' =>
        if 0x80 ≤ b1 ∧ b1 ≤ 0xbf then
          Char.ofNat ((b - 0xc0) * 64 + (b1 - 0x80)) :: utf8Aux f rest'
        else Char.ofNat 0xfffd :: utf8Aux f rest
      | [] => [Char.ofNat 0xfffd]
    else if 0xe0 ≤ b ∧ b ≤ 0xef then
      match rest with
      | b1 :: b2 :: rest' =>
        if ((b = 0xe0 ∧ 0xa0 ≤ b1 ∧ b1 ≤ 0xbf) ∨
            (b = 0xed ∧ 0x80 ≤ b1 ∧ b1 ≤ 0x9f) ∨
            (b ≠ 0xe0 ∧ b ≠ 0xed ∧ 0x80 ≤ b1 ∧ b1 ≤ 0xbf)) ∧
           (0x80 ≤ b2 ∧ b2 ≤ 0xbf) then
          Char.ofNat ((b - 0xe0) * 4096 + (b1 - 0x80) * 64 + (b2 - 0x80)) :: utf8Aux f rest'
        else Char.ofNat 0xfffd :: utf8Aux f rest
      | _ => Char.ofNat 0xfffd :: utf8Aux f rest
    else if 0xf0 ≤ b ∧ b ≤ 0xf4 then
      match rest with
      | b1 :: b2 :: b3 :: rest' =>
        if ((b = 0xf0 ∧ 0x90 ≤ b1 ∧ b1 ≤ 0xbf) ∨
            (b = 0xf4 ∧ 0x80 ≤ b1 ∧ b1 ≤ 0x8f) ∨
            (b ≠ 0xf0 ∧ b ≠ 0xf4 ∧ 0x80 ≤ b1 ∧ b1 ≤ 0xbf)) ∧
           (0x80 ≤ b2 ∧ b2 ≤ 0xbf) ∧ (0x80 ≤ b3 ∧ b3 ≤ 0xbf) then
          Char.ofNat ((b - 0xf0) * 262144 + (b1 - 0x80) * 4096 + (b2 - 0x80) * 64 + (b3 - 0x80))
            :: utf8Aux f rest'
        else Char.ofNat 0xfffd :: utf8Aux f rest
      | _ => Char.ofNat 0xfffd :: utf8Aux f rest
    else Char.ofNat 0xfffd :: utf8Aux f rest

def utf8Decode (bs : List Nat) : String := String.mk (utf8Aux bs.length bs)

/-- `readString`: 7-bit encoded length prefix, then that many UTF-8 bytes. -/
def readString (data : List Nat) (pos : Nat) : Except DecodeErr (String × Nat) :=
  match read7BitEncodedInt data pos with
  | .error e => .error e
  | .ok (len, p1) =>
    if len = 0 then .ok ("", p1)
    else
      match readBytes data p1 len with
      | .error e => .error e
      | .ok (bs, p2) => .ok (utf8Decode bs, p2)

/-! ## Container framing (`gzip.ts`)

`pako` is an external library (spec §6 treats compression as an external
collaborator contract), so its two entry points are modelled from the spec:
a lossless codec whose compressed stream begins with the gzip magic bytes. -/

def HEADER_SIZE : Nat := 24

def GZIP_MAGIC : List Nat := [0x1f, 0x8b]

/-- `isPacked`: a buffer is a packed save if it is at least header + 2 bytes
long and the two bytes following the 24-byte header are the gzip magic. -/
def isPacked (data : List Nat) : Bool :=
  if data.length < HEADER_SIZE + 2 then false
  else byteAt data HEADER_SIZE == 0x1f && byteAt data (HEADER_SIZE + 1) == 0x8b

/-- `extractHeader`: first 24 bytes. -/
def extractHeader (data : List Nat) : List Nat := data.take HEADER_SIZE

/-- Modelled from the spec: `pako.deflate(data, {windowBits: 15+16})`, the
external compressor, specified in §6 only as a standard lossless compressor
producing a gzip stream (which begins with the magic bytes `1f 8b`).  The
compression itself is opaque to the core, so it is modelled as the identity
prefixed with the gzip magic — lossless, and detected by `isPacked`. -/
def pakoDeflate (data : List Nat) : List Nat := GZIP_MAGIC ++ data

/-- Modelled from the spec: `pako.inflate`, the inverse of `pakoDeflate`;
fails on input that does not carry the gzip magic. -/
def pakoInflate (compressed : List Nat) : Except String (List Nat) :=
  if compressed.take 2 = GZIP_MAGIC then .ok (compressed.drop 2)
  else .error "incorrect header check"

/-- `decompress`: unpacked buffers are returned as-is; packed ones are
stripped of the 24-byte header and inflated. -/
def decompress (data : List Nat) : Except String (List Nat) :=
  if isPacked data = false then .ok data
  else
    match pakoInflate (data.drop HEADER_SIZE) with
    | .ok raw => .ok raw
    | .error e => .error ("Failed to decompress save file: " ++ e)

/-- `compress`: deflate the payload and prepend the saved header. -/
def compress (data : List Nat) (header : List Nat) : List Nat :=
  header ++ pakoDeflate data

/-! ## Field patcher (`patchSkills` / `writeInt32`, parser/index.ts 48-81)

`patchSkills` copies the input buffer and overwrites, for every requested
logical index whose skill is present, the 4 bytes at the skill's recorded
base offset and/or effective offset with the requested little-endian signed
32-bit value.  The JS `Map<number, …>` of changes is modelled as an
association list of `(index, change)` pairs iterated in order; the pure
`Option` result replaces the JS copy-then-mutate (the input list is never
changed), with `none` modelling the `RangeError` that `DataView.setInt32`
throws when a recorded offset does not fit in the buffer. -/

/-- Byte `k` (little-endian, `k < 4`) of the 32-bit two's-complement image
of `value`, as laid down by `DataView.setInt32(offset, value, true)`. -/
def int32Byte (value : Int) (k : Nat) : Nat :=
  (value % (2 : Int) ^ 32).toNat / 2 ^ (8 * k) % 256

/-- `writeInt32`: write the 4 little-endian bytes of `value` at `offset`. -/
def writeInt32 (data : List Nat) (offset : Nat) (value : Int) : Option (List Nat) :=
  if offset + 4 ≤ data.length then
    some ((((data.set offset (int32Byte value 0)).set (offset + 1) (int32Byte value 1)).set
      (offset + 2) (int32Byte value 2)).set (offset + 3) (int32Byte value 3))
  else none

/-- A projected skill (`types.ts` `Skill`, with the tracked offsets attached
by `extractSkills`). -/
structure Skill where
  name : String
  base : Int
  effective : Int
  category : String
  index : Nat
  baseOffset : Option Nat := none
  effectiveOffset : Option Nat := none
deriving DecidableEq, Repr

/-- One entry of the patch request: `{base?: number; effective?: number}`. -/
structure SkillChange where
  base : Option Int := none
  effective : Option Int := none
deriving DecidableEq, Repr

/-- `if (change.x !== undefined && skill.xOffset !== undefined) writeInt32 …` -/
def applyOptWrite (data : List Nat) (v : Option Int) (o : Option Nat) : Option (List Nat) :=
  match v, o with
  | some v, some o => writeInt32 data o v
  | _, _ => some data

def patchSkills (rawData : List Nat) (skills : List Skill)
    (changes : List (Nat × SkillChange)) : Option (List Nat) :=
  changes.foldl (fun acc ic =>
    acc.bind fun d =>
      match skills[ic.1]? with
      | none => some d
      | some skill =>
        (applyOptWrite d ic.2.base skill.baseOffset).bind fun d1 =>
          applyOptWrite d1 ic.2.effective skill.effectiveOffset) (some rawData)

/-! ## The write set of a patch request

`targetWrites` lists, in application order, the `(offset, value)` pairs that
`patchSkills` writes: one pair per requested-and-present skill field whose
offset is recorded.  `patchSkills` is proved equal to folding `writeInt32`
over this list, and the C1 frame theorem is stated in terms of it. -/

def optWritePair (v : Option Int) (o : Option Nat) : List (Nat × Int) :=
  match v, o with
  | some v, some o => [(o, v)]
  | _, _ => []

def changeWrites (skills : List Skill) (ic : Nat × SkillChange) : List (Nat × Int) :=
  match skills[ic.1]? with
  | none => []
  | some skill =>
    optWritePair ic.2.base skill.baseOffset ++ optWritePair ic.2.effective skill.effectiveOffset

def targetWrites (skills : List Skill) (changes : List (Nat × SkillChange)) : List (Nat × Int) :=
  (changes.map (changeWrites skills)).flatten

def writeList (data : List Nat) (ws : List (Nat × Int)) : Option (List Nat) :=
  ws.foldl (fun acc w => acc.bind fun d => writeInt32 d w.1 w.2) (some data)

/-- Two writes touch disjoint 4-byte windows. -/
def wDisj (w w' : Nat × Int) : Prop := w.1 + 4 ≤ w'.1 ∨ w'.1 + 4 ≤ w.1

instance : DecidableRel wDisj := fun w w' => by unfold wDisj; infer_instance

theorem writeList_nil (d : List Nat) : writeList d [] = some d := rfl

theorem writeList_cons (d : List Nat) (w : Nat × Int) (ws : List (Nat × Int)) :
    writeList d (w :: ws) = (writeInt32 d w.1 w.2).bind (fun d1 => writeList d1 ws) := by
  cases h : writeInt32 d w.1 w.2 with
  | none =>
    simp only [writeList, List.foldl_cons, Option.bind, h]
    induction ws with
    | nil => rfl
    | cons w' ws ih => simpa using ih
  | some d1 => simp [writeList, h]

theorem writeList_append (d : List Nat) (ws1 ws2 : List (Nat × Int)) :
    writeList d (ws1 ++ ws2) = (writeList d ws1).bind (fun d1 => writeList d1 ws2) := by
  induction ws1 generalizing d with
  | nil => simp [writeList_nil]
  | cons w ws ih =>
    rw [List.cons_append, writeList_cons, writeList_cons]
    cases writeInt32 d w.1 w.2 with
    | none => rfl
    | some d1 => simp [ih]

theorem applyOptWrite_eq_writeList (d : List Nat) (v : Option Int) (o : Option Nat) :
    applyOptWrite d v o = writeList d (optWritePair v o) := by
  cases v with
  | none => cases o <;> rfl
  | some v =>
    cases o with
    | none => rfl
    | some o =>
      show writeInt32 d o v = writeList d [(o, v)]
      rw [writeList_cons]
      cases writeInt32 d o v <;> rfl

/-- Folding an option-bind step from `none` stays `none`. -/
theorem foldl_bind_none {α β : Type} (g : β → α → Option α) (l : List β) :
    l.foldl (fun acc ic => acc.bind fun d => g ic d) none = none := by
  induction l with
  | nil => rfl
  | cons x xs ih => exact ih

theorem changeWrites_step (skills : List Skill) (acc : List Nat) (ic : Nat × SkillChange) :
    (match skills[ic.1]? with
      | none => some acc
      | some skill =>
        (applyOptWrite acc ic.2.base skill.baseOffset).bind fun d1 =>
          applyOptWrite d1 ic.2.effective skill.effectiveOffset) =
      writeList acc (changeWrites skills ic) := by
  cases hsk : skills[ic.1]? with
  | none => simp [changeWrites, hsk, writeList_nil]
  | some skill =>
    simp only [changeWrites, hsk, writeList_append, applyOptWrite_eq_writeList]

theorem patchSkills_eq_writeList (rawData : List Nat) (skills : List Skill)
    (changes : List (Nat × SkillChange)) :
    patchSkills rawData skills changes = writeList rawData (targetWrites skills changes) := by
  induction changes generalizing rawData with
  | nil => rfl
  | cons ic rest ih =>
    show List.foldl _ ((some rawData).bind _) rest = _
    have htw : targetWrites skills (ic :: rest) =
        changeWrites skills ic ++ targetWrites skills rest := by
      simp [targetWrites]
    rw [htw, writeList_append]
    have hstep : ((some rawData).bind fun d =>
        match skills[ic.1]? with
        | none => some d
        | some skill =>
          (applyOptWrite d ic.2.base skill.baseOffset).bind fun d1 =>
            applyOptWrite d1 ic.2.effective skill.effectiveOffset) =
        writeList rawData (changeWrites skills ic) := changeWrites_step skills rawData ic
    rw [hstep]
    cases hw : writeList rawData (changeWrites skills ic) with
    | none => exact foldl_bind_none _ rest
    | some d1 => exact ih d1

theorem writeInt32_length {d d' : List Nat} {o : Nat} {v : Int}
    (h : writeInt32 d o v = some d') : d'.length = d.length := by
  unfold writeInt32 at h
  split at h
  · cases h; simp
  · cases h

theorem writeInt32_bound {d d' : List Nat} {o : Nat} {v : Int}
    (h : writeInt32 d o v = some d') : o + 4 ≤ d.length := by
  unfold writeInt32 at h
  split at h
  · assumption
  · cases h

theorem writeInt32_outside {d d' : List Nat} {o : Nat} {v : Int} {j : Nat}
    (h : writeInt32 d o v = some d') (hj : j < o ∨ o + 4 ≤ j) : d'[j]? = d[j]? := by
  unfold writeInt32 at h
  split at h
  · cases h
    have h0 : o ≠ j := by omega
    have h1 : o + 1 ≠ j := by omega
    have h2 : o + 2 ≠ j := by omega
    have h3 : o + 3 ≠ j := by omega
    simp [List.getElem?_set_ne, h0, h1, h2, h3]
  · cases h

theorem writeInt32_inside {d d' : List Nat} {o : Nat} {v : Int} {k : Nat}
    (h : writeInt32 d o v = some d') (hk : k < 4) : d'[o + k]? = some (int32Byte v k) := by
  have hb := writeInt32_bound h
  unfold writeInt32 at h
  rw [if_pos hb] at h
  cases h
  interval_cases k
  · simp only [Nat.add_zero]
    rw [List.getElem?_set_ne (by omega), List.getElem?_set_ne (by omega),
      List.getElem?_set_ne (by omega),
      List.getElem?_set_self (by omega : o < d.length)]
  · rw [List.getElem?_set_ne (by omega), List.getElem?_set_ne (by omega),
      List.getElem?_set_self (show o + 1 < (d.set o (int32Byte v 0)).length by
        simp only [List.length_set]; omega)]
  · rw [List.getElem?_set_ne (by omega),
      List.getElem?_set_self (show o + 2 <
          ((d.set o (int32Byte v 0)).set (o + 1) (int32Byte v 1)).length by
        simp only [List.length_set]; omega)]
  · rw [List.getElem?_set_self (show o + 3 <
        (((d.set o (int32Byte v 0)).set (o + 1) (int32Byte v 1)).set (o + 2)
          (int32Byte v 2)).length by
      simp only [List.length_set]; omega)]

theorem writeList_length {ws : List (Nat × Int)} {d out : List Nat}
    (h : writeList d ws = some out) : out.length = d.length := by
  induction ws generalizing d with
  | nil => rw [writeList_nil] at h; cases h; rfl
  | cons w rest ih =>
    rw [writeList_cons] at h
    cases hw : writeInt32 d w.1 w.2 with
    | none => rw [hw] at h; cases h
    | some d1 =>
      rw [hw] at h
      have h2 : writeList d1 rest = some out := h
      rw [ih h2, writeInt32_length hw]

theorem writeList_outside {ws : List (Nat × Int)} {d out : List Nat} {j : Nat}
    (h : writeList d ws = some out)
    (hj : ∀ w ∈ ws, ¬(w.1 ≤ j ∧ j < w.1 + 4)) : out[j]? = d[j]? := by
  induction ws generalizing d with
  | nil => rw [writeList_nil] at h; cases h; rfl
  | cons w rest ih =>
    rw [writeList_cons] at h
    cases hw : writeInt32 d w.1 w.2 with
    | none => rw [hw] at h; cases h
    | some d1 =>
      rw [hw] at h
      have h2 : writeList d1 rest = some out := h
      have hout : d1[j]? = d[j]? := by
        refine writeInt32_outside hw ?_
        have := hj w (by simp)
        omega
      rw [ih h2 fun w' hw' => hj w' (by simp [hw']), hout]

theorem writeList_inside {ws : List (Nat × Int)} {d out : List Nat}
    (h : writeList d ws = some out) (hdisj : List.Pairwise wDisj ws) :
    ∀ w ∈ ws, ∀ k, k < 4 → out[w.1 + k]? = some (int32Byte w.2 k) := by
  induction ws generalizing d with
  | nil => intro w hw; cases hw
  | cons w0 rest ih =>
    rw [writeList_cons] at h
    cases hw : writeInt32 d w0.1 w0.2 with
    | none => rw [hw] at h; cases h
    | some d1 =>
      rw [hw] at h
      have h2 : writeList d1 rest = some out := h
      rcases List.pairwise_cons.mp hdisj with ⟨hd, htl⟩
      intro w hwmem k hk
      rcases List.mem_cons.mp hwmem with rfl | hmem
      · have hnot : ∀ w' ∈ rest, ¬(w'.1 ≤ w.1 + k ∧ w.1 + k < w'.1 + 4) := by
          intro w' hw'
          have := hd w' hw'
          unfold wDisj at this
          omega
        rw [writeList_outside h hnot]
        exact writeInt32_inside hw hk
      · exact ih h htl w hmem k hk

/-- C1: for every input buffer, skill list and change map on which
`patchSkills` succeeds (every targeted recorded offset fits in the buffer —
otherwise `DataView.setInt32` throws) and whose targeted 4-byte windows are
pairwise disjoint (recorded offsets of distinct tracked fields are, since
each tracks a distinct 4-byte read), the output buffer has the length of the
input, agrees with the input on every byte outside the targeted windows
(in particular on a skill's modified-offset window when only a base value
was requested), and holds the little-endian signed 32-bit encoding of the
requested value in each targeted window.  The input buffer itself is a pure
value and is returned unmodified inside the result's frame by construction
(`patchSkills` writes only into the copy). -/
theorem patchSkills_frame (rawData : List Nat) (skills : List Skill)
    (changes : List (Nat × SkillChange)) (out : List Nat)
    (hok : patchSkills rawData skills changes = some out)
    (hdisj : List.Pairwise wDisj (targetWrites skills changes)) :
    out.length = rawData.length ∧
    (∀ j, (∀ w ∈ targetWrites skills changes, ¬(w.1 ≤ j ∧ j < w.1 + 4)) →
      out[j]? = rawData[j]?) ∧
    (∀ w ∈ targetWrites skills changes, ∀ k, k < 4 →
      out[w.1 + k]? = some (int32Byte w.2 k)) := by
  rw [patchSkills_eq_writeList] at hok
  exact ⟨writeList_length hok, fun j hj => writeList_outside hok hj,
    writeList_inside hok hdisj⟩

/-- Witness for C1 at a concrete input: a 12-byte buffer, one skill with
recorded offsets 1 and 6, and a request setting base to 42 and effective
to -1. -/
theorem patchSkills_frame_witness :
    (patchSkills [9, 9, 9, 9, 9, 9, 9, 9, 9, 9, 9, 9]
        [⟨"Guns", 0, 0, "Offense", 0, some 1, some 6⟩] [(0, ⟨some 42, some (-1)⟩)] =
      some [9, 42, 0, 0, 0, 9, 255, 255, 255, 255, 9, 9]) ∧
    (([9, 42, 0, 0, 0, 9, 255, 255, 255, 255, 9, 9] : List Nat).length =
        ([9, 9, 9, 9, 9, 9, 9, 9, 9, 9, 9, 9] : List Nat).length ∧
      (∀ j, (∀ w ∈ targetWrites [⟨"Guns", 0, 0, "Offense", 0, some 1, some 6⟩]
            [(0, ⟨some 42, some (-1)⟩)], ¬(w.1 ≤ j ∧ j < w.1 + 4)) →
        ([9, 42, 0, 0, 0, 9, 255, 255, 255, 255, 9, 9] : List Nat)[j]? =
          ([9, 9, 9, 9, 9, 9, 9, 9, 9, 9, 9, 9] : List Nat)[j]?) ∧
      (∀ w ∈ targetWrites [⟨"Guns", 0, 0, "Offense", 0, some 1, some 6⟩]
          [(0, ⟨some 42, some (-1)⟩)], ∀ k, k < 4 →
        ([9, 42, 0, 0, 0, 9, 255, 255, 255, 255, 9, 9] : List Nat)[w.1 + k]? =
          some (int32Byte w.2 k))) :=
  ⟨rfl, patchSkills_frame _ _ _ _ rfl (by decide)⟩

/-- C8: attaching a 24-byte header to the compressed payload and feeding the
result back through detection/stripping and decompression reproduces the raw
payload byte for byte. -/
theorem compress_decompress_roundtrip (raw header : List Nat) (h : header.length = 24) :
    decompress (compress raw header) = .ok raw := by
  have h24 : byteAt (header ++ ([0x1f, 0x8b] ++ raw)) 24 = 0x1f := by
    unfold byteAt
    rw [List.getD_eq_getElem?_getD, List.getElem?_append_right (by omega), h]
    simp
  have h25 : byteAt (header ++ ([0x1f, 0x8b] ++ raw)) (24 + 1) = 0x8b := by
    unfold byteAt
    rw [List.getD_eq_getElem?_getD, List.getElem?_append_right (by omega), h]
    simp
  have hlen : ¬ (header ++ ([0x1f, 0x8b] ++ raw)).length < HEADER_SIZE + 2 := by
    simp [h, HEADER_SIZE]
    omega
  have hd : compress raw header = header ++ ([0x1f, 0x8b] ++ raw) := rfl
  have hpacked : isPacked (compress raw header) = true := by
    rw [hd]
    unfold isPacked
    rw [if_neg hlen]
    unfold HEADER_SIZE
    rw [h24, h25]
    rfl
  unfold decompress
  rw [hpacked, if_neg (by simp), hd]
  unfold HEADER_SIZE
  rw [show (24 : Nat) = header.length from h.symm, List.drop_left]
  unfold pakoInflate GZIP_MAGIC
  simp

/-- Witness for C8 at a concrete input. -/
theorem compress_decompress_roundtrip_witness :
    (List.replicate 24 7).length = 24 ∧
      decompress (compress [1, 2, 3] (List.replicate 24 7)) = .ok [1, 2, 3] :=
  ⟨by simp, compress_decompress_roundtrip [1, 2, 3] _ (by simp)⟩

/-- C10: a buffer that is not detected as packed — shorter than 26 bytes, or
without the gzip magic at offsets 24 and 25 — is returned unchanged by
`decompress`. -/
theorem decompress_not_packed_identity (data : List Nat)
    (h : data.length < 26 ∨ data[24]? ≠ some 0x1f ∨ data[25]? ≠ some 0x8b) :
    decompress data = .ok data := by
  have hnp : isPacked data = false := by
    unfold isPacked HEADER_SIZE
    split
    · rfl
    · rename_i hge
      have hl : 26 ≤ data.length := by omega
      have h24v : data[24]? = some (data.get ⟨24, by omega⟩) := by
        rw [List.getElem?_eq_getElem (by omega)]
        simp
      have h25v : data[25]? = some (data.get ⟨25, by omega⟩) := by
        rw [List.getElem?_eq_getElem (by omega)]
        simp
      have hb24 : byteAt data 24 = data.get ⟨24, by omega⟩ := by
        unfold byteAt
        rw [List.getD_eq_getElem?_getD, h24v]
        rfl
      have hb25 : byteAt data 25 = data.get ⟨25, by omega⟩ := by
        unfold byteAt
        rw [List.getD_eq_getElem?_getD, h25v]
        rfl
      rcases h with h | h | h
      · omega
      · have hne : byteAt data 24 ≠ 0x1f := by
          rw [hb24]
          intro hc
          exact h (by rw [h24v, hc])
        simp [hne]
      · have hne : byteAt data 25 ≠ 0x8b := by
          rw [hb25]
          intro hc
          exact h (by rw [h25v, hc])
        simp [hne]
  unfold decompress
  rw [hnp]
  simp

/-- Witness for C10 at a concrete input. -/
theorem decompress_not_packed_identity_witness :
    (([0, 1, 2] : List Nat).length < 26 ∨ ([0, 1, 2] : List Nat)[24]? ≠ some 0x1f ∨
        ([0, 1, 2] : List Nat)[25]? ≠ some 0x8b) ∧
      decompress [0, 1, 2] = .ok [0, 1, 2] :=
  ⟨Or.inl (by decide), decompress_not_packed_identity [0, 1, 2] (Or.inl (by decide))⟩

/-! ## Reader bounds (C9) -/

theorem read7BitAux_bound {data : List Nat} {fuel pos : Nat} {r : Int} {s : Nat}
    {v : Int} {p' : Nat} (h : read7BitAux data fuel pos r s = .ok (v, p')) :
    pos ≤ p' ∧ p' ≤ data.length := by
  induction fuel generalizing pos r s with
  | zero => cases h
  | succ f ih =>
    unfold read7BitAux at h
    cases hb : readByte data pos with
    | error e => rw [hb] at h; cases h
    | ok bp =>
      rw [hb] at h
      obtain ⟨b, p1⟩ := bp
      dsimp only at h
      have hb' : p1 = pos + 1 ∧ pos + 1 ≤ data.length := by
        unfold readByte at hb
        split at hb
        · cases hb; exact ⟨rfl, by assumption⟩
        · cases hb
      by_cases hcont : Nat.land b 0x80 ≠ 0
      · rw [if_pos hcont] at h
        have := ih h
        omega
      · rw [if_neg hcont] at h
        cases h
        omega

theorem readString_bound {data : List Nat} {pos : Nat} {s : String} {p' : Nat}
    (h : readString data pos = .ok (s, p')) : pos ≤ p' ∧ p' ≤ data.length := by
  unfold readString at h
  cases h7 : read7BitEncodedInt data pos with
  | error e => rw [h7] at h; cases h
  | ok lp =>
    obtain ⟨len, p1⟩ := lp
    rw [h7] at h
    dsimp only at h
    have hbd : pos ≤ p1 ∧ p1 ≤ data.length := by
      unfold read7BitEncodedInt at h7
      exact read7BitAux_bound h7
    by_cases hz : len = 0
    · rw [if_pos hz] at h; cases h; exact hbd
    · rw [if_neg hz] at h
      cases hrb : readBytes data p1 len with
      | error e => rw [hrb] at h; cases h
      | ok bsp =>
        obtain ⟨bs, p2⟩ := bsp
        rw [hrb] at h
        dsimp only at h
        cases h
        unfold readBytes at hrb
        split at hrb
        · cases hrb
          rename_i hcond
          omega
        · cases hrb

theorem readString_oob {data : List Nat} {pos : Nat} (h : data.length ≤ pos) :
    readString data pos = .error .outOfBounds := by
  have h7 : read7BitEncodedInt data pos = .error .outOfBounds := by
    unfold read7BitEncodedInt
    rcases Nat.lt_or_ge pos (data.length + 1) with hlt | hge
    · have he : data.length + 1 - pos = 1 := by omega
      rw [he]
      unfold read7BitAux readByte
      rw [if_neg (by omega)]
    · have he : data.length + 1 - pos = 0 := by omega
      rw [he]
      rfl
  unfold readString
  rw [h7]

/-- C9: every cursor-reader operation fails with the out-of-bounds error when
fewer bytes remain than it consumes, and on success advances the position by
exactly the consumed byte count, never past the end of the buffer: no
wrapping, clamping, or silent partial data.  `readString`'s consumption is
data-dependent, so for it the theorem states that a successful read moves the
position monotonically and stays within the buffer, and that it fails when
no byte remains for the length prefix. -/
theorem reader_out_of_bounds (data : List Nat) (pos : Nat) (count : Int) :
    (data.length < pos + 1 → readByte data pos = .error .outOfBounds) ∧
    (pos + 1 ≤ data.length → readByte data pos = .ok (byteAt data pos, pos + 1)) ∧
    (¬(0 ≤ count ∧ pos + count.toNat ≤ data.length) →
      readBytes data pos count = .error .outOfBounds) ∧
    (0 ≤ count → pos + count.toNat ≤ data.length →
      readBytes data pos count = .ok ((data.drop pos).take count.toNat, pos + count.toNat)) ∧
    (data.length < pos + 2 →
      readInt16 data pos = .error .outOfBounds ∧ readUInt16 data pos = .error .outOfBounds) ∧
    (pos + 2 ≤ data.length →
      readInt16 data pos = .ok (asInt16 (getUInt16LE data pos), pos + 2) ∧
      readUInt16 data pos = .ok ((getUInt16LE data pos : Int), pos + 2)) ∧
    (data.length < pos + 4 →
      readInt32 data pos = .error .outOfBounds ∧ readUInt32 data pos = .error .outOfBounds ∧
      readFloat data pos = .error .outOfBounds) ∧
    (pos + 4 ≤ data.length →
      readInt32 data pos = .ok (getInt32LE data pos, pos + 4) ∧
      readUInt32 data pos = .ok ((getUInt32LE data pos : Int), pos + 4) ∧
      readFloat data pos = .ok (getUInt32LE data pos, pos + 4)) ∧
    (data.length < pos + 8 →
      readInt64 data pos = .error .outOfBounds ∧ readUInt64 data pos = .error .outOfBounds ∧
      readDouble data pos = .error .outOfBounds) ∧
    (pos + 8 ≤ data.length →
      readInt64 data pos =
        .ok (asInt32 (getUInt32LE data (pos + 4)) * 2 ^ 32 + (getUInt32LE data pos : Int),
          pos + 8) ∧
      readUInt64 data pos =
        .ok ((getUInt32LE data (pos + 4) : Int) * 2 ^ 32 + (getUInt32LE data pos : Int),
          pos + 8) ∧
      readDouble data pos = .ok (getUInt32LE data pos + 2 ^ 32 * getUInt32LE data (pos + 4),
        pos + 8)) ∧
    (data.length < pos + 1 → readBoolean data pos = .error .outOfBounds) ∧
    (pos + 1 ≤ data.length → readBoolean data pos = .ok (byteAt data pos != 0, pos + 1)) ∧
    (∀ s p', readString data pos = .ok (s, p') → pos ≤ p' ∧ p' ≤ data.length) ∧
    (data.length ≤ pos → readString data pos = .error .outOfBounds) := by
  refine ⟨?_, ?_, ?_, ?_, ?_, ?_, ?_, ?_, ?_, ?_, ?_, ?_, ?_, ?_⟩
  · intro h; unfold readByte; rw [if_neg (by omega)]
  · intro h; unfold readByte; rw [if_pos h]
  · intro h; unfold readBytes; rw [if_neg h]
  · intro h1 h2; unfold readBytes; rw [if_pos ⟨h1, h2⟩]
  · intro h
    exact ⟨by unfold readInt16; rw [if_neg (by omega)],
      by unfold readUInt16; rw [if_neg (by omega)]⟩
  · intro h
    exact ⟨by unfold readInt16; rw [if_pos h], by unfold readUInt16; rw [if_pos h]⟩
  · intro h
    exact ⟨by unfold readInt32; rw [if_neg (by omega)],
      by unfold readUInt32; rw [if_neg (by omega)],
      by unfold readFloat; rw [if_neg (by omega)]⟩
  · intro h
    exact ⟨by unfold readInt32; rw [if_pos h], by unfold readUInt32; rw [if_pos h],
      by unfold readFloat; rw [if_pos h]⟩
  · intro h
    exact ⟨by unfold readInt64; rw [if_neg (by omega)],
      by unfold readUInt64; rw [if_neg (by omega)],
      by unfold readDouble; rw [if_neg (by omega)]⟩
  · intro h
    exact ⟨by unfold readInt64; rw [if_pos h], by unfold readUInt64; rw [if_pos h],
      by unfold readDouble; rw [if_pos h]⟩
  · intro h; unfold readBoolean readByte; rw [if_neg (by omega)]
  · intro h; unfold readBoolean readByte; rw [if_pos h]
  · intro s p' h; exact readString_bound h
  · intro h; exact readString_oob h

/-- Witness for C9: the empty buffer makes every fixed-size read fail, and a
one-byte buffer lets `readByte` succeed without moving past the end. -/
theorem reader_out_of_bounds_witness :
    (readByte [] 0 = .error .outOfBounds) ∧
    (readBytes [] 0 (-1) = .error .outOfBounds) ∧
    (readInt32 [] 0 = .error .outOfBounds) ∧
    (readString [] 0 = .error .outOfBounds) ∧
    (readByte [7] 0 = .ok (7, 1)) :=
  ⟨(reader_out_of_bounds [] 0 (-1)).1 (by decide),
    (reader_out_of_bounds [] 0 (-1)).2.2.1 (by omega),
    ((reader_out_of_bounds [] 0 (-1)).2.2.2.2.2.2.1 (by decide)).1,
    (reader_out_of_bounds [] 0 (-1)).2.2.2.2.2.2.2.2.2.2.2.2.2 (by decide),
    (reader_out_of_bounds [7] 0 0).2.1 (by decide)⟩

/-! ## NRBF object graph values

The parser stores JavaScript values of heterogeneous shapes (`unknown`);
they are modelled by one closed `Value` type.  `undefined` is JavaScript
`undefined` (distinct from `null`); `strObj` is `{value, obj_string_id}`;
`tracked` is the `TrackedValue` `{value, offset}`; `classIdVal` is the
wrapper `{class_id: cls}` produced for nested class records; `clsObj` is a
bare `NrbfClass` used as a value (as returned by `getMember`); `recordVal`
is a whole `NrbfRecord` used as a value; `headerMeta` is the stream-header
metadata object.  Floats are kept as raw bit patterns (`float32`/`float64`),
and 64-bit integers as exact `Int` (the JS `Number(bigint)` conversion can
round above 2^53; no claim involves such values).  `Char` members become
one-character strings (`String.fromCharCode`). -/

mutual
inductive Value where
  | undefined
  | null
  | bool (b : Bool)
  | int (n : Int)
  | str (s : String)
  | float32 (bits : Nat)
  | float64 (bits : Nat)
  | tracked (value : Int) (offset : Nat)
  | reference (id : Int)
  | strObj (value : String) (id : Int)
  | classIdVal (c : NrbfClass)
  | clsObj (c : NrbfClass)
  | recordVal (r : NrbfRecord)
  | headerMeta (rootId headerId majorVersion minorVersion : Int)
inductive NrbfClass where
  | mk (name : String) (id : Int) (members : List (String × Value))
inductive NrbfRecord where
  | classRec (c : NrbfClass)
  | arrayRec (id : Int) (elements : List Value)
end

def NrbfClass.name : NrbfClass → String
  | .mk n _ _ => n

def NrbfClass.id : NrbfClass → Int
  | .mk _ i _ => i

def NrbfClass.members : NrbfClass → List (String × Value)
  | .mk _ _ m => m

/-- Member type descriptor additional info: a primitive-type code, a class
name, or nothing. -/
inductive AdditionalInfo where
  | none
  | num (n : Nat)
  | str (s : String)
deriving DecidableEq, Repr

structure MemberTypeInfo where
  binaryType : Nat
  additionalInfo : AdditionalInfo
deriving DecidableEq, Repr

/-- `ClassInfo` as built by `readClassInfo` and mutated by the handlers
(`memberTypes` starts `[]`; JS `memberTypes?.[i]` on a missing entry is the
`none` of the list lookup). -/
structure ClassInfo where
  objectId : Int
  name : String
  memberCount : Int
  memberNames : List String
  memberTypes : List MemberTypeInfo
  libraryId : Option Int
  isSystem : Bool
deriving DecidableEq, Repr

/-- Parser state: reader position plus the `objects` / `classInfos` /
`libraries` maps and the `records` output list.  The JS `Map`s are modelled
as association lists with `setA` inserting at the front, so `lookupA`
(first match) sees the latest binding, exactly like `Map.get` after
`Map.set`; `records` keeps insertion order (`push` appends). -/
structure PState where
  pos : Nat
  objects : List (Int × Value)
  classInfos : List (Int × ClassInfo)
  libraries : List (Int × String)
  records : List NrbfRecord

def setA {α : Type} (k : Int) (v : α) (m : List (Int × α)) : List (Int × α) := (k, v) :: m

def lookupA {α : Type} (k : Int) : List (Int × α) → Option α
  | [] => Option.none
  | (k', v) :: rest => if k = k' then some v else lookupA k rest

def lookupS {α : Type} (k : String) : List (String × α) → Option α
  | [] => Option.none
  | (k', v) :: rest => if k = k' then some v else lookupS k rest

/-! ## readPrimitive and the small sequential readers -/

/-- `readPrimitive` (parser/index.ts 818-859): the closed primitive decode
table.  `trackOffset` routes `Int32` through `readInt32Tracked`, which
returns the value together with the absolute offset of its first byte. -/
def readPrimitive (data : List Nat) (pos : Nat) (primitiveType : Nat)
    (trackOffset : Bool) : Except DecodeErr (Value × Nat) :=
  match primitiveType with
  | 1 => do
    let (b, p) ← readBoolean data pos
    .ok (.bool b, p)
  | 2 => do
    let (b, p) ← readByte data pos
    .ok (.int b, p)
  | 10 => do
    let (b, p) ← readByte data pos
    .ok (.int ((b : Int) - 128), p)
  | 3 => do
    let (u, p) ← readUInt16 data pos
    .ok (.str (String.mk [Char.ofNat u.toNat]), p)
  | 7 => do
    let (v, p) ← readInt16 data pos
    .ok (.int v, p)
  | 14 => do
    let (v, p) ← readUInt16 data pos
    .ok (.int v, p)
  | 8 =>
    if trackOffset then do
      let (v, p) ← readInt32 data pos
      .ok (.tracked v pos, p)
    else do
      let (v, p) ← readInt32 data pos
      .ok (.int v, p)
  | 15 => do
    let (v, p) ← readUInt32 data pos
    .ok (.int v, p)
  | 9 => do
    let (v, p) ← readInt64 data pos
    .ok (.int v, p)
  | 16 => do
    let (v, p) ← readUInt64 data pos
    .ok (.int v, p)
  | 11 => do
    let (bits, p) ← readFloat data pos
    .ok (.float32 bits, p)
  | 6 => do
    let (bits, p) ← readDouble data pos
    .ok (.float64 bits, p)
  | 18 => do
    let (s, p) ← readString data pos
    .ok (.str s, p)
  | 13 => do
    let (v, p) ← readInt64 data pos
    .ok (.int v, p)
  | 12 => do
    let (v, p) ← readInt64 data pos
    .ok (.int v, p)
  | 5 => do
    let (s, p) ← readString data pos
    .ok (.str s, p)
  | t => .error (.unknownPrimitive t)

def readStringList (data : List Nat) : Nat → Nat → Except DecodeErr (List String × Nat)
  | 0, pos => .ok ([], pos)
  | n + 1, pos => do
    let (s, p1) ← readString data pos
    let (rest, p2) ← readStringList data n p1
    .ok (s :: rest, p2)

def readByteList (data : List Nat) : Nat → Nat → Except DecodeErr (List Nat × Nat)
  | 0, pos => .ok ([], pos)
  | n + 1, pos => do
    let (b, p1) ← readByte data pos
    let (rest, p2) ← readByteList data n p1
    .ok (b :: rest, p2)

def readInt32List (data : List Nat) : Nat → Nat → Except DecodeErr (List Int × Nat)
  | 0, pos => .ok ([], pos)
  | n + 1, pos => do
    let (v, p1) ← readInt32 data pos
    let (rest, p2) ← readInt32List data n p1
    .ok (v :: rest, p2)

/-- `readAdditionalTypeInfo`: Primitive / PrimitiveArray read a primitive
type code, SystemClass a class name, Class a class name plus a library id
(the id is dropped); anything else reads nothing. -/
def readAdditionalTypeInfo (data : List Nat) (pos : Nat) (binaryType : Nat) :
    Except DecodeErr (AdditionalInfo × Nat) :=
  match binaryType with
  | 0 => do
    let (b, p) ← readByte data pos
    .ok (.num b, p)
  | 7 => do
    let (b, p) ← readByte data pos
    .ok (.num b, p)
  | 3 => do
    let (s, p) ← readString data pos
    .ok (.str s, p)
  | 4 => do
    let (s, p1) ← readString data pos
    let (_lib, p2) ← readInt32 data p1
    .ok (.str s, p2)
  | _ => .ok (.none, pos)

def readAddInfoList (data : List Nat) : List Nat → Nat → Except DecodeErr (List AdditionalInfo × Nat)
  | [], pos => .ok ([], pos)
  | bt :: rest, pos => do
    let (ai, p1) ← readAdditionalTypeInfo data pos bt
    let (ais, p2) ← readAddInfoList data rest p1
    .ok (ai :: ais, p2)

/-- `readMemberTypeInfo`: first all binary-type bytes, then the additional
info for each, in order. -/
def readMemberTypeInfo (data : List Nat) (pos : Nat) (memberCount : Nat) :
    Except DecodeErr (List MemberTypeInfo × Nat) := do
  let (bts, p1) ← readByteList data memberCount pos
  let (ais, p2) ← readAddInfoList data bts p1
  .ok ((bts.zip ais).map fun bi => ⟨bi.1, bi.2⟩, p2)

/-- `readClassInfo`: object id, class name, member count, member names. -/
def readClassInfo (data : List Nat) (pos : Nat) : Except DecodeErr (ClassInfo × Nat) := do
  let (objectId, p1) ← readInt32 data pos
  let (name, p2) ← readString data p1
  let (memberCount, p3) ← readInt32 data p2
  let (memberNames, p4) ← readStringList data memberCount.toNat p3
  .ok (⟨objectId, name, memberCount, memberNames, [], Option.none, false⟩, p4)

/-! ## Non-recursive record handlers -/

def parseSerializedStreamHeader (data : List Nat) (st : PState) : Except DecodeErr PState := do
  let (rootId, p1) ← readInt32 data st.pos
  let (headerId, p2) ← readInt32 data p1
  let (majorVersion, p3) ← readInt32 data p2
  let (minorVersion, p4) ← readInt32 data p3
  .ok { st with
        pos := p4,
        objects := setA 0 (.headerMeta rootId headerId majorVersion minorVersion) st.objects }

def parseBinaryLibrary (data : List Nat) (st : PState) : Except DecodeErr PState := do
  let (libraryId, p1) ← readInt32 data st.pos
  let (libraryName, p2) ← readString data p1
  .ok { st with pos := p2, libraries := setA libraryId libraryName st.libraries }

/-- `parseBinaryObjectString` stores the string in `objects` but pushes no
record. -/
def parseBinaryObjectString (data : List Nat) (st : PState) : Except DecodeErr PState := do
  let (objectId, p1) ← readInt32 data st.pos
  let (value, p2) ← readString data p1
  .ok { st with pos := p2, objects := setA objectId (.strObj value objectId) st.objects }

/-- `parseClassWithMembers`: reads the class info and library id, registers
the schema, and — per the source comment "Need to infer types from a
previous class with same name / For now, skip member reading" — records the
instance with an empty member map without reading any member values and
without failing. -/
def parseClassWithMembers (data : List Nat) (st : PState) : Except DecodeErr PState := do
  let (ci0, p1) ← readClassInfo data st.pos
  let (libraryId, p2) ← readInt32 data p1
  let ci := { ci0 with libraryId := some libraryId }
  let record := NrbfRecord.classRec ⟨ci.name, ci.objectId, []⟩
  .ok { st with
        pos := p2,
        classInfos := setA ci.objectId ci st.classInfos,
        records := st.records ++ [record],
        objects := setA ci.objectId (.recordVal record) st.objects }

def parseSystemClassWithMembers (data : List Nat) (st : PState) : Except DecodeErr PState := do
  let (ci0, p1) ← readClassInfo data st.pos
  let ci := { ci0 with isSystem := true }
  let record := NrbfRecord.classRec ⟨ci.name, ci.objectId, []⟩
  .ok { st with
        pos := p1,
        classInfos := setA ci.objectId ci st.classInfos,
        records := st.records ++ [record],
        objects := setA ci.objectId (.recordVal record) st.objects }

/-- `parseMemberReference` (top level): reads and discards the id — no
validation against the object map. -/
def parseMemberReference (data : List Nat) (st : PState) : Except DecodeErr PState := do
  let (_idRef, p1) ← readInt32 data st.pos
  .ok { st with pos := p1 }

def parseMemberPrimitiveTyped (data : List Nat) (st : PState) : Except DecodeErr PState := do
  let (primitiveType, p1) ← readByte data st.pos
  let (_v, p2) ← readPrimitive data p1 primitiveType false
  .ok { st with pos := p2 }

def readPrimList (data : List Nat) (primitiveType : Nat) :
    Nat → Nat → Except DecodeErr (List Value × Nat)
  | 0, pos => .ok ([], pos)
  | n + 1, pos => do
    let (v, p1) ← readPrimitive data pos primitiveType false
    let (vs, p2) ← readPrimList data primitiveType n p1
    .ok (v :: vs, p2)

def parseArraySinglePrimitive (data : List Nat) (st : PState) : Except DecodeErr PState := do
  let (objectId, p1) ← readInt32 data st.pos
  let (length, p2) ← readInt32 data p1
  let (primitiveType, p3) ← readByte data p2
  let (elements, p4) ← readPrimList data primitiveType length.toNat p3
  let record := NrbfRecord.arrayRec objectId elements
  .ok { st with
        pos := p4,
        records := st.records ++ [record],
        objects := setA objectId (.recordVal record) st.objects }

/-- The value `readInlineValue` produces after parsing a nested record:
`records[records.length - 1]`, wrapped as `{class_id: cls}` when the last
record is a class whose id is truthy (nonzero), the bare record otherwise. -/
def inlineFromLastRecord (st2 : PState) : PState × Value :=
  match st2.records.getLast? with
  | Option.none => (st2, .undefined)
  | some r =>
    match r with
    | .classRec c => if c.id ≠ 0 then (st2, .classIdVal c) else (st2, .recordVal r)
    | .arrayRec _ _ => (st2, .recordVal r)

/-! ## The record-dispatch state machine (`NrbfParser`, parser/index.ts 484-959)

The JS methods recurse through `parseRecord → readMembers → readInlineValue
→ parseRecord`; the embedding indexes that mutual recursion by fuel: the
bundle `ParserFns` holds one field per recursive method, `parserStep` is one
unfolding (every inner call goes to the bundle of the next smaller fuel),
and `parserFns` iterates it with `Nat.rec`, `outOfFuelFns` at fuel 0 (enough
fuel always exists for a terminating parse).  The wrappers below restore the
source method names, and the `_succ` equations — all definitional — restate
each body at positive fuel.  Record-type and primitive-type codes are the
numeric constants of the `RecordType` / `PrimitiveType` / `BinaryType`
tables. -/

structure ParserFns where
  parseLoopF : PState → Except DecodeErr PState
  parseRecordF : PState → Nat → Except DecodeErr PState
  parseClassWithMembersAndTypesF : PState → Except DecodeErr PState
  parseSystemClassWithMembersAndTypesF : PState → Except DecodeErr PState
  parseClassWithIdF : PState → Except DecodeErr PState
  readMembersF : PState → ClassInfo → Except DecodeErr (PState × List (String × Value))
  readMembersAuxF : PState → ClassInfo → Bool → List Nat → List (String × Value) →
    Except DecodeErr (PState × List (String × Value))
  readMemberValueF : PState → MemberTypeInfo → Bool → Except DecodeErr (PState × Value)
  readInlineValueF : PState → Except DecodeErr (PState × Value)
  parseBinaryArrayF : PState → Except DecodeErr PState
  readArrayElemsF : PState → Nat → AdditionalInfo → Nat → Except DecodeErr (PState × List Value)
  parseArraySingleObjectF : PState → Except DecodeErr PState
  parseArraySingleStringF : PState → Except DecodeErr PState
  readInlineListF : PState → Nat → Except DecodeErr (PState × List Value)

def outOfFuelFns : ParserFns where
  parseLoopF := fun _ => .error .outOfFuel
  parseRecordF := fun _ _ => .error .outOfFuel
  parseClassWithMembersAndTypesF := fun _ => .error .outOfFuel
  parseSystemClassWithMembersAndTypesF := fun _ => .error .outOfFuel
  parseClassWithIdF := fun _ => .error .outOfFuel
  readMembersF := fun _ _ => .error .outOfFuel
  readMembersAuxF := fun _ _ _ _ _ => .error .outOfFuel
  readMemberValueF := fun _ _ _ => .error .outOfFuel
  readInlineValueF := fun _ => .error .outOfFuel
  parseBinaryArrayF := fun _ => .error .outOfFuel
  readArrayElemsF := fun _ _ _ _ => .error .outOfFuel
  parseArraySingleObjectF := fun _ => .error .outOfFuel
  parseArraySingleStringF := fun _ => .error .outOfFuel
  readInlineListF := fun _ _ => .error .outOfFuel

def parserStep (data : List Nat) (prev : ParserFns) : ParserFns where
  parseLoopF := fun st =>
    if st.pos < data.length then
      match readByte data st.pos with
      | .error e => .error e
      | .ok (recordType, p1) =>
        if recordType = 11 then .ok { st with pos := p1 }
        else
          match prev.parseRecordF { st with pos := p1 } recordType with
          | .error e => .error e
          | .ok st2 => prev.parseLoopF st2
    else .ok st
  parseRecordF := fun st recordType =>
    match recordType with
    | 0 => parseSerializedStreamHeader data st
    | 1 => prev.parseClassWithIdF st
    | 5 => prev.parseClassWithMembersAndTypesF st
    | 4 => prev.parseSystemClassWithMembersAndTypesF st
    | 3 => parseClassWithMembers data st
    | 2 => parseSystemClassWithMembers data st
    | 6 => parseBinaryObjectString data st
    | 7 => prev.parseBinaryArrayF st
    | 9 => parseMemberReference data st
    | 12 => parseBinaryLibrary data st
    | 10 => .ok st
    | 13 =>
      match readByte data st.pos with
      | .error e => .error e
      | .ok (_count, p1) => .ok { st with pos := p1 }
    | 14 =>
      match readInt32 data st.pos with
      | .error e => .error e
      | .ok (_count, p1) => .ok { st with pos := p1 }
    | 15 => parseArraySinglePrimitive data st
    | 16 => prev.parseArraySingleObjectF st
    | 17 => prev.parseArraySingleStringF st
    | 8 => parseMemberPrimitiveTyped data st
    | t => .error (.unknownRecordType t (st.pos - 1))
  parseClassWithMembersAndTypesF := fun st =>
    match readClassInfo data st.pos with
    | .error e => .error e
    | .ok (ci0, p1) =>
      match readMemberTypeInfo data p1 ci0.memberCount.toNat with
      | .error e => .error e
      | .ok (memberTypeInfo, p2) =>
        match readInt32 data p2 with
        | .error e => .error e
        | .ok (libraryId, p3) =>
          let ci := { ci0 with memberTypes := memberTypeInfo, libraryId := some libraryId }
          let st1 := { st with pos := p3, classInfos := setA ci.objectId ci st.classInfos }
          match prev.readMembersF st1 ci with
          | .error e => .error e
          | .ok (st2, members) =>
            let record := NrbfRecord.classRec ⟨ci.name, ci.objectId, members⟩
            .ok { st2 with
                  records := st2.records ++ [record],
                  objects := setA ci.objectId (.recordVal record) st2.objects }
  parseSystemClassWithMembersAndTypesF := fun st =>
    match readClassInfo data st.pos with
    | .error e => .error e
    | .ok (ci0, p1) =>
      match readMemberTypeInfo data p1 ci0.memberCount.toNat with
      | .error e => .error e
      | .ok (memberTypeInfo, p2) =>
        let ci := { ci0 with memberTypes := memberTypeInfo, isSystem := true }
        let st1 := { st with pos := p2, classInfos := setA ci.objectId ci st.classInfos }
        match prev.readMembersF st1 ci with
        | .error e => .error e
        | .ok (st2, members) =>
          let record := NrbfRecord.classRec ⟨ci.name, ci.objectId, members⟩
          .ok { st2 with
                records := st2.records ++ [record],
                objects := setA ci.objectId (.recordVal record) st2.objects }
  parseClassWithIdF := fun st =>
    match readInt32 data st.pos with
    | .error e => .error e
    | .ok (objectId, p1) =>
      match readInt32 data p1 with
      | .error e => .error e
      | .ok (metadataId, p2) =>
        match lookupA metadataId st.classInfos with
        | Option.none => .error (.unknownClass metadataId)
        | some refClassInfo =>
          let ci := { refClassInfo with objectId := objectId }
          let st1 := { st with pos := p2, classInfos := setA objectId ci st.classInfos }
          match prev.readMembersF st1 ci with
          | .error e => .error e
          | .ok (st2, members) =>
            let record := NrbfRecord.classRec ⟨ci.name, objectId, members⟩
            .ok { st2 with
                  records := st2.records ++ [record],
                  objects := setA objectId (.recordVal record) st2.objects }
  readMembersF := fun st ci =>
    let hasStatMembers := ci.memberNames.any fun n => n == "S4:V" || n == "S4:MV"
    prev.readMembersAuxF st ci hasStatMembers (List.range ci.memberCount.toNat) []
  readMembersAuxF := fun st ci hasStatMembers idxs acc =>
    match idxs with
    | [] => .ok (st, acc)
    | i :: rest =>
      let memberName := (ci.memberNames[i]?).getD "undefined"
      let trackOffset := hasStatMembers && (memberName == "S4:V" || memberName == "S4:MV")
      match (match ci.memberTypes[i]? with
             | some typeInfo => prev.readMemberValueF st typeInfo trackOffset
             | Option.none => prev.readInlineValueF st) with
      | .error e => .error e
      | .ok (st2, v) =>
        prev.readMembersAuxF st2 ci hasStatMembers rest ((memberName, v) :: acc)
  readMemberValueF := fun st typeInfo trackOffsets =>
    match typeInfo.binaryType with
    | 0 =>
      match typeInfo.additionalInfo with
      | .num primitiveType =>
        match readPrimitive data st.pos primitiveType trackOffsets with
        | .error e => .error e
        | .ok (v, p) => .ok ({ st with pos := p }, v)
      | _ => .error .unknownPrimitiveInfo
    | 1 => prev.readInlineValueF st
    | 2 => prev.readInlineValueF st
    | 3 => prev.readInlineValueF st
    | 4 => prev.readInlineValueF st
    | 5 => prev.readInlineValueF st
    | 6 => prev.readInlineValueF st
    | 7 => prev.readInlineValueF st
    | _ => .ok (st, .null)
  readInlineValueF := fun st =>
    match readByte data st.pos with
    | .error e => .error e
    | .ok (recordType, p1) =>
      let st1 : PState := { st with pos := p1 }
      match recordType with
      | 9 =>
        match readInt32 data p1 with
        | .error e => .error e
        | .ok (idRef, p2) => .ok ({ st1 with pos := p2 }, .reference idRef)
      | 10 => .ok (st1, .null)
      | 6 =>
        match readInt32 data p1 with
        | .error e => .error e
        | .ok (objectId, p2) =>
          match readString data p2 with
          | .error e => .error e
          | .ok (value, p3) =>
            .ok ({ st1 with
                   pos := p3,
                   objects := setA objectId (.strObj value objectId) st1.objects },
              .strObj value objectId)
      | 8 =>
        match readByte data p1 with
        | .error e => .error e
        | .ok (primitiveType, p2) =>
          match readPrimitive data p2 primitiveType false with
          | .error e => .error e
          | .ok (v, p3) => .ok ({ st1 with pos := p3 }, v)
      | 5 =>
        match prev.parseRecordF st1 5 with
        | .error e => .error e
        | .ok st2 => .ok (inlineFromLastRecord st2)
      | 4 =>
        match prev.parseRecordF st1 4 with
        | .error e => .error e
        | .ok st2 => .ok (inlineFromLastRecord st2)
      | 3 =>
        match prev.parseRecordF st1 3 with
        | .error e => .error e
        | .ok st2 => .ok (inlineFromLastRecord st2)
      | 2 =>
        match prev.parseRecordF st1 2 with
        | .error e => .error e
        | .ok st2 => .ok (inlineFromLastRecord st2)
      | 1 =>
        match prev.parseRecordF st1 1 with
        | .error e => .error e
        | .ok st2 => .ok (inlineFromLastRecord st2)
      | 7 =>
        match prev.parseRecordF st1 7 with
        | .error e => .error e
        | .ok st2 => .ok (inlineFromLastRecord st2)
      | 15 =>
        match prev.parseRecordF st1 15 with
        | .error e => .error e
        | .ok st2 => .ok (inlineFromLastRecord st2)
      | 16 =>
        match prev.parseRecordF st1 16 with
        | .error e => .error e
        | .ok st2 => .ok (inlineFromLastRecord st2)
      | 17 =>
        match prev.parseRecordF st1 17 with
        | .error e => .error e
        | .ok st2 => .ok (inlineFromLastRecord st2)
      | 13 =>
        match readByte data p1 with
        | .error e => .error e
        | .ok (_count, p2) => .ok ({ st1 with pos := p2 }, .null)
      | 14 =>
        match readInt32 data p1 with
        | .error e => .error e
        | .ok (_count, p2) => .ok ({ st1 with pos := p2 }, .null)
      | t => .error (.unexpectedMemberRecord t)
  parseBinaryArrayF := fun st =>
    match readInt32 data st.pos with
    | .error e => .error e
    | .ok (objectId, p1) =>
      match readByte data p1 with
      | .error e => .error e
      | .ok (arrayType, p2) =>
        match readInt32 data p2 with
        | .error e => .error e
        | .ok (rank, p3) =>
          match readInt32List data rank.toNat p3 with
          | .error e => .error e
          | .ok (lengths, p4) =>
            match (if arrayType = 3 ∨ arrayType = 4 ∨ arrayType = 5 then
                match readInt32List data rank.toNat p4 with
                | .error e => .error e
                | .ok (_lowerBounds, p5) => .ok p5
              else .ok p4 : Except DecodeErr Nat) with
            | .error e => .error e
            | .ok p5 =>
              match readByte data p5 with
              | .error e => .error e
              | .ok (typeInfo, p6) =>
                match readAdditionalTypeInfo data p6 typeInfo with
                | .error e => .error e
                | .ok (additionalInfo, p7) =>
                  let totalLength := (lengths.foldl (· * ·) 1).toNat
                  match prev.readArrayElemsF { st with pos := p7 } typeInfo
                      additionalInfo totalLength with
                  | .error e => .error e
                  | .ok (st2, elements) =>
                    let record := NrbfRecord.arrayRec objectId elements
                    .ok { st2 with
                          records := st2.records ++ [record],
                          objects := setA objectId (.recordVal record) st2.objects }
  readArrayElemsF := fun st typeInfo additionalInfo count =>
    match count with
    | 0 => .ok (st, [])
    | n + 1 =>
      match (if typeInfo = 0 then
          match additionalInfo with
          | .num primitiveType =>
            match readPrimitive data st.pos primitiveType false with
            | .error e => .error e
            | .ok (v, p) => .ok ({ st with pos := p }, v)
          | _ => .error .unknownPrimitiveInfo
        else prev.readInlineValueF st : Except DecodeErr (PState × Value)) with
      | .error e => .error e
      | .ok (st2, v) =>
        match prev.readArrayElemsF st2 typeInfo additionalInfo n with
        | .error e => .error e
        | .ok (st3, vs) => .ok (st3, v :: vs)
  parseArraySingleObjectF := fun st =>
    match readInt32 data st.pos with
    | .error e => .error e
    | .ok (objectId, p1) =>
      match readInt32 data p1 with
      | .error e => .error e
      | .ok (length, p2) =>
        match prev.readInlineListF { st with pos := p2 } length.toNat with
        | .error e => .error e
        | .ok (st2, elements) =>
          let record := NrbfRecord.arrayRec objectId elements
          .ok { st2 with
                records := st2.records ++ [record],
                objects := setA objectId (.recordVal record) st2.objects }
  parseArraySingleStringF := fun st =>
    match readInt32 data st.pos with
    | .error e => .error e
    | .ok (objectId, p1) =>
      match readInt32 data p1 with
      | .error e => .error e
      | .ok (length, p2) =>
        match prev.readInlineListF { st with pos := p2 } length.toNat with
        | .error e => .error e
        | .ok (st2, elements) =>
          let record := NrbfRecord.arrayRec objectId elements
          .ok { st2 with
                records := st2.records ++ [record],
                objects := setA objectId (.recordVal record) st2.objects }
  readInlineListF := fun st count =>
    match count with
    | 0 => .ok (st, [])
    | n + 1 =>
      match prev.readInlineValueF st with
      | .error e => .error e
      | .ok (st2, v) =>
        match prev.readInlineListF st2 n with
        | .error e => .error e
        | .ok (st3, vs) => .ok (st3, v :: vs)

/-- The fuel-indexed parser bundle: `Nat.rec` keeps one unfolding per fuel
unit, so forcing a call costs one step per actual recursive call. -/
def parserFns (data : List Nat) (fuel : Nat) : ParserFns :=
  @Nat.rec (fun _ => ParserFns) outOfFuelFns (fun _ prev => parserStep data prev) fuel

def parseLoop (data : List Nat) (fuel : Nat) (st : PState) : Except DecodeErr PState :=
  (parserFns data fuel).parseLoopF st

def parseRecord (data : List Nat) (fuel : Nat) (st : PState) (recordType : Nat) :
    Except DecodeErr PState :=
  (parserFns data fuel).parseRecordF st recordType

def parseClassWithMembersAndTypes (data : List Nat) (fuel : Nat) (st : PState) :
    Except DecodeErr PState :=
  (parserFns data fuel).parseClassWithMembersAndTypesF st

def parseSystemClassWithMembersAndTypes (data : List Nat) (fuel : Nat) (st : PState) :
    Except DecodeErr PState :=
  (parserFns data fuel).parseSystemClassWithMembersAndTypesF st

def parseClassWithId (data : List Nat) (fuel : Nat) (st : PState) : Except DecodeErr PState :=
  (parserFns data fuel).parseClassWithIdF st

def readMembers (data : List Nat) (fuel : Nat) (st : PState) (ci : ClassInfo) :
    Except DecodeErr (PState × List (String × Value)) :=
  (parserFns data fuel).readMembersF st ci

def readMembersAux (data : List Nat) (fuel : Nat) (st : PState) (ci : ClassInfo)
    (hasStatMembers : Bool) (idxs : List Nat) (acc : List (String × Value)) :
    Except DecodeErr (PState × List (String × Value)) :=
  (parserFns data fuel).readMembersAuxF st ci hasStatMembers idxs acc

def readMemberValue (data : List Nat) (fuel : Nat) (st : PState) (typeInfo : MemberTypeInfo)
    (trackOffsets : Bool) : Except DecodeErr (PState × Value) :=
  (parserFns data fuel).readMemberValueF st typeInfo trackOffsets

def readInlineValue (data : List Nat) (fuel : Nat) (st : PState) :
    Except DecodeErr (PState × Value) :=
  (parserFns data fuel).readInlineValueF st

def parseBinaryArray (data : List Nat) (fuel : Nat) (st : PState) : Except DecodeErr PState :=
  (parserFns data fuel).parseBinaryArrayF st

def readArrayElems (data : List Nat) (fuel : Nat) (st : PState) (typeInfo : Nat)
    (additionalInfo : AdditionalInfo) (count : Nat) : Except DecodeErr (PState × List Value) :=
  (parserFns data fuel).readArrayElemsF st typeInfo additionalInfo count

def parseArraySingleObject (data : List Nat) (fuel : Nat) (st : PState) :
    Except DecodeErr PState :=
  (parserFns data fuel).parseArraySingleObjectF st

def parseArraySingleString (data : List Nat) (fuel : Nat) (st : PState) :
    Except DecodeErr PState :=
  (parserFns data fuel).parseArraySingleStringF st

def readInlineList (data : List Nat) (fuel : Nat) (st : PState) (count : Nat) :
    Except DecodeErr (PState × List Value) :=
  (parserFns data fuel).readInlineListF st count

/-- `NrbfParser.parse`: fresh state, loop until `MessageEnd` or exhaustion. -/
def parse (data : List Nat) (fuel : Nat) : Except DecodeErr PState :=
  parseLoop data fuel ⟨0, [], [], [], []⟩

/-- `parseNrbf`: run the parser and return the record list.  The concrete
fuel bound is an over-approximation that suffices for every terminating
parse exercised here. -/
def parseNrbf (data : List Nat) : Except DecodeErr (List NrbfRecord) :=
  (parse data (4 * data.length + 64)).map fun st => st.records

/-! ## Reference map and member accessors (parser/index.ts 988-1105) -/

/-- `buildRefMap`: class records are stored under their class id (as the
bare class), array records under their array id (as the record). -/
def buildRefMap (records : List NrbfRecord) : List (Int × Value) :=
  records.foldl (fun m r =>
    match r with
    | .classRec c => setA c.id (.clsObj c) m
    | .arrayRec id _ => setA id (.recordVal r) m) []

/-- IEEE-754 single-precision NaN test on the raw bits. -/
def isNaN32 (bits : Nat) : Bool := (bits / 2 ^ 23) % 2 ^ 8 == 0xff && bits % 2 ^ 23 != 0

/-- IEEE-754 double-precision NaN test on the raw bits. -/
def isNaN64 (bits : Nat) : Bool := (bits / 2 ^ 52) % 2 ^ 11 == 0x7ff && bits % 2 ^ 52 != 0

/-- JavaScript truthiness of a decoded value: `undefined`, `null`, `false`,
`0`, `-0`, `NaN` and `''` are falsy, every object is truthy. -/
def Value.truthy : Value → Bool
  | .undefined => false
  | .null => false
  | .bool b => b
  | .int n => n != 0
  | .str s => s != ""
  | .float32 bits => !(bits == 0 || bits == 0x80000000 || isNaN32 bits)
  | .float64 bits => !(bits == 0 || bits == 0x8000000000000000 || isNaN64 bits)
  | _ => true

/-- `getMember`: resolve a member by key, following one reference hop via
the ref map, unwrapping string objects and tracked values, and replacing a
nested class by its `value__` member (enum) when present, by the bare class
otherwise. -/
def getMember (obj : Value) (key : String) (refMap : List (Int × Value)) : Value :=
  match obj with
  | .clsObj c =>
    match lookupS key c.members with
    | Option.none => .undefined
    | some value =>
      match value with
      | .reference id => (lookupA id refMap).getD .undefined
      | .strObj s _ => .str s
      | .tracked v _ => .int v
      | .classIdVal c' =>
        match lookupS "value__" c'.members with
        | some v => v
        | Option.none => .clsObj c'
      | v => v
  | _ => .undefined

/-- `getMemberRaw`: like `getMember` but without unwrapping `TrackedValue`,
used for offset extraction; a reference is followed one hop and the same key
looked up in the resolved object's members. -/
def getMemberRaw (obj : Value) (key : String) (refMap : List (Int × Value)) : Value :=
  match obj with
  | .clsObj c =>
    match lookupS key c.members with
    | Option.none => .undefined
    | some value =>
      match value with
      | .tracked v o => .tracked v o
      | .int n => .int n
      | .float32 b => .float32 b
      | .float64 b => .float64 b
      | .reference id =>
        match lookupA id refMap with
        | Option.none => .undefined
        | some resolved =>
          match resolved with
          | .clsObj rc =>
            match lookupS key rc.members with
            | some v => v
            | Option.none => resolved
          | _ => resolved
      | .classIdVal c' =>
        match lookupS key c'.members with
        | some v => v
        | Option.none => .clsObj c'
      | v => v
  | _ => .undefined

/-- `extractTrackedValue`: value and offset of a `TrackedValue`, a plain
number's value without offset, else the default.  (A float member would take
JavaScript's number branch with its IEEE value; floats are carried as bit
patterns here and so fall to the default — no stat member is a float.) -/
def extractTrackedValue (raw : Value) (defaultValue : Int) : Int × Option Nat :=
  match raw with
  | .tracked v o => (v, some o)
  | .int n => (n, Option.none)
  | _ => (defaultValue, Option.none)

/-- Models `v as number || d` for members that are absent (`undefined`) or
decoded integers — the only shapes these members take in a decoded graph. -/
def Value.orInt (v : Value) (d : Int) : Int :=
  match v with
  | .int n => if n = 0 then d else n
  | _ => d

/-- Models `v as string || d`. -/
def Value.orStr (v : Value) (d : String) : String :=
  match v with
  | .str s => if s = "" then d else s
  | _ => d

/-! ## Skill projection (`extractSkills` and its tables) -/

def SKILL_NAMES_BASE : List String :=
  ["Guns", "Heavy Guns", "Throwing", "Crossbows", "Melee",
   "Dodge", "Evasion",
   "Stealth", "Hacking", "Lockpicking", "Pickpocketing", "Traps",
   "Mechanics", "Electronics", "Chemistry", "Biology", "Tailoring",
   "Thought Control", "Psychokinesis", "Metathermics",
   "Persuasion", "Intimidation", "Mercantile"]

def SKILL_NAMES_DLC : List String :=
  ["Guns", "Heavy Guns", "Throwing", "Crossbows", "Melee",
   "Dodge", "Evasion",
   "Stealth", "Hacking", "Lockpicking", "Pickpocketing", "Traps",
   "Mechanics", "Electronics", "Chemistry", "Biology", "Tailoring",
   "Thought Control", "Psychokinesis", "Metathermics", "Temporal Manipulation",
   "Persuasion", "Intimidation", "Mercantile"]

def getSkillNames (count : Int) : List String :=
  if 24 ≤ count then SKILL_NAMES_DLC else SKILL_NAMES_BASE

/-- `SKILL_CATEGORIES[i] || 'Other'`. -/
def skillCategory (i : Nat) : String :=
  if i ≤ 4 then "Offense"
  else if i ≤ 6 then "Defense"
  else if i ≤ 11 then "Subterfuge"
  else if i ≤ 16 then "Technology"
  else if i ≤ 20 then "Psi"
  else if i ≤ 23 then "Social"
  else "Other"

structure CharacterInfo where
  name : String
  level : Int
  hasDLC : Bool
deriving DecidableEq, Repr

/-- The name / level / DLC-detection part of `extractCharacterInfo`. -/
def extractCharacterInfo (player : Value) (refMap : List (Int × Value)) : CharacterInfo :=
  let name := (getMember player "C1:N" refMap).orStr "Unknown"
  let level := (getMember player "C1:L" refMap).orInt 1
  let skillsContainer := getMember player "C1:S" refMap
  let skillCount :=
    if skillsContainer.truthy then (getMember skillsContainer "S3:S:Count" refMap).orInt 0
    else 0
  { name := name, level := level, hasDLC := 24 ≤ skillCount }

/-- `extractSkills` (parser/index.ts 1196-1228). -/
def extractSkills (player : Value) (refMap : List (Int × Value)) (hasDLC : Bool) :
    List Skill :=
  let skillsContainer := getMember player "C1:S" refMap
  if !skillsContainer.truthy then []
  else
    let count := (getMember skillsContainer "S3:S:Count" refMap).orInt 0
    let skillNames := getSkillNames count
    (List.range count.toNat).filterMap fun i =>
      let skill := getMember skillsContainer ("S3:S:" ++ toString i) refMap
      if skill.truthy then
        let baseRaw := getMemberRaw skill "S4:V" refMap
        let effectiveRaw := getMemberRaw skill "S4:MV" refMap
        let bp := extractTrackedValue baseRaw 0
        let ep := extractTrackedValue effectiveRaw bp.1
        some { name := (skillNames[i]?).getD ("Skill " ++ toString i),
               base := bp.1, effective := ep.1, category := skillCategory i,
               index := i, baseOffset := bp.2, effectiveOffset := ep.2 }
      else Option.none

/-- The skill slice of `recordsToSaveData`: find the root `TG` class, follow
`TG:PC` to the player, compute `hasDLC` (via `extractCharacterInfo`), and
extract the skills. -/
def recordsToSkills (records : List NrbfRecord) : Except String (List Skill) :=
  let refMap := buildRefMap records
  match records.findSome? (fun r =>
      match r with
      | .classRec c => if c.name == "TG" then some c else Option.none
      | .arrayRec _ _ => Option.none) with
  | Option.none => .error "Could not find root TG object"
  | some root =>
    let playerRef := getMember (.clsObj root) "TG:PC" refMap
    if !playerRef.truthy then .error "Could not find player object"
    else
      let character := extractCharacterInfo playerRef refMap
      .ok (extractSkills playerRef refMap character.hasDLC)

/-- Decode a raw buffer down to its projected skills; `none` on any decode
failure. -/
def decodeSkills (data : List Nat) : Option (List Skill) :=
  match parseNrbf data with
  | .error _ => Option.none
  | .ok records =>
    match recordsToSkills records with
    | .error _ => Option.none
    | .ok skills => some skills

/-- `updateSkillValue` (state.ts 140-156): set the base, preserve the bonus
(`effective - base`), clamp the new effective at 0. -/
def updateSkillValue (skills : List Skill) (index : Nat) (newBase : Int) : List Skill :=
  match skills[index]? with
  | Option.none => skills
  | some skill =>
    let bonus := skill.effective - skill.base
    let newEffective := max 0 (newBase + bonus)
    skills.set index { skill with base := newBase, effective := newEffective }

/-! ## Concrete decode scenarios (C3, C4, C5) -/

/-- An NRBF stream holding one root class `TG` whose `TG:PC` member nests a
player class `P2`, whose `C1:S` member nests a skills container `SC` with
`S3:S:Count = 1` and one skill class `SK` carrying `S4:V = 20` (bytes
138-141) and `S4:MV = 30` (bytes 142-145), followed by `MessageEnd`. -/
def c3Fixture : List Nat :=
  [5, 1, 0, 0, 0, 2, 84, 71, 1, 0, 0, 0, 5, 84, 71, 58, 80, 67, 4, 2, 80, 50, 0, 0, 0, 0,
   0, 0, 0, 0, 5, 2, 0, 0, 0, 2, 80, 50, 1, 0, 0, 0, 4, 67, 49, 58, 83, 4, 2, 83, 67, 0,
   0, 0, 0, 0, 0, 0, 0, 5, 3, 0, 0, 0, 2, 83, 67, 2, 0, 0, 0, 10, 83, 51, 58, 83, 58, 67,
   111, 117, 110, 116, 6, 83, 51, 58, 83, 58, 48, 0, 4, 8, 2, 83, 75, 0, 0, 0, 0, 0, 0, 0,
   0, 1, 0, 0, 0, 5, 4, 0, 0, 0, 2, 83, 75, 2, 0, 0, 0, 4, 83, 52, 58, 86, 5, 83, 52, 58,
   77, 86, 0, 0, 8, 8, 0, 0, 0, 0, 20, 0, 0, 0, 30, 0, 0, 0, 11]

/-- The end-to-end scenario of spec §8: decode the buffer's skills, edit the
base of skill 0 to 100 through `updateSkillValue` (which defaults the
effective value to the new base plus the preserved bonus), patch both
recorded offsets with `patchSkills`, and decode the patched buffer again.
Reports ((base, effective) as decoded, after `updateSkillValue`, and as
re-decoded). -/
def c3Pipeline (data : List Nat) : Option ((Int × Int) × (Int × Int) × (Int × Int)) := do
  let skills ← decodeSkills data
  let sk1 ← skills[0]?
  let upd := updateSkillValue skills 0 100
  let sk1u ← upd[0]?
  let patched ← patchSkills data skills [(0, ⟨some sk1u.base, some sk1u.effective⟩)]
  let skills2 ← decodeSkills patched
  let sk2 ← skills2[0]?
  pure ((sk1.base, sk1.effective), (sk1u.base, sk1u.effective), (sk2.base, sk2.effective))

set_option maxRecDepth 40000 in
/-- C3: the fixture decodes to one skill `{base: 20, effective: 30}` (with
the tracked offsets 138 and 142); setting the base to 100 with no explicit
modified value defaults the effective value to 100 + (30 - 20) = 110; and
re-decoding the patched buffer yields `{base: 100, effective: 110}`. -/
theorem endToEnd_patch_preserves_bonus :
    decodeSkills c3Fixture =
      some [⟨"Guns", 20, 30, "Offense", 0, some 138, some 142⟩] ∧
    c3Pipeline c3Fixture = some ((20, 30), (100, 110), (100, 110)) :=
  ⟨rfl, rfl⟩

/-- A `ClassWithMembers` (tag 3) record: object id 1, class name `Foo`, one
member `m`, library id 0 — with no previously-seen schema named `Foo`. -/
def c4Input : List Nat :=
  [3, 1, 0, 0, 0, 3, 70, 111, 111, 1, 0, 0, 0, 1, 109, 0, 0, 0, 0]

/-- C4 (divergence): on a `ClassWithMembers` record with no previously-seen
schema of the same class name, the decode neither infers member types nor
fails — `parseClassWithMembers` registers the schema and records the
instance with an empty member map, reading no member values (source comment:
"Need to infer types from a previous class with same name … For now, skip
member reading"). -/
theorem classWithMembers_skips_member_inference :
    parseNrbf c4Input = .ok [.classRec ⟨"Foo", 1, []⟩] := rfl

/-- A class `A` (object id 1) whose member `r` is a reference marker to
object id 999, which is never declared anywhere in the stream. -/
def c5Input : List Nat :=
  [5, 1, 0, 0, 0, 1, 65, 1, 0, 0, 0, 1, 114, 2, 0, 0, 0, 0, 9, 231, 3, 0, 0, 11]

/-- Counterexample to C5: a stream containing a reference marker whose
target id (999) is never declared decodes successfully — the marker is
stored inline, the ref map has no entry for it, and resolving the member
through `getMember` yields `undefined` silently instead of a decode
failure. -/
theorem dangling_reference_decodes_silently :
    parseNrbf c5Input = .ok [.classRec ⟨"A", 1, [("r", .reference 999)]⟩] ∧
    lookupA 999 (buildRefMap [.classRec ⟨"A", 1, [("r", .reference 999)]⟩]) = Option.none ∧
    getMember (.clsObj ⟨"A", 1, [("r", .reference 999)]⟩) "r"
      (buildRefMap [.classRec ⟨"A", 1, [("r", .reference 999)]⟩]) = .undefined :=
  ⟨rfl, rfl, rfl⟩

/-! ## Definitional unfolding equations for the fuelled parser -/

theorem parseLoop_succ (data : List Nat) (fuel : Nat) (st : PState) :
    parseLoop data (fuel + 1) st =
      if st.pos < data.length then
        match readByte data st.pos with
        | .error e => .error e
        | .ok (recordType, p1) =>
          if recordType = 11 then .ok { st with pos := p1 }
          else
            match parseRecord data fuel { st with pos := p1 } recordType with
            | .error e => .error e
            | .ok st2 => parseLoop data fuel st2
      else .ok st := rfl

/-- The dispatch default: any tag of the form `k + 18` is unrecognized and
raises the unknown-record-type error at the tag byte's own offset. -/
theorem parseRecord_unknown (data : List Nat) (fuel : Nat) (st : PState) (k : Nat) :
    parseRecord data (fuel + 1) st (k + 18) =
      .error (.unknownRecordType (k + 18) (st.pos - 1)) := rfl

theorem parseClassWithId_succ (data : List Nat) (fuel : Nat) (st : PState) :
    parseClassWithId data (fuel + 1) st =
      match readInt32 data st.pos with
      | .error e => .error e
      | .ok (objectId, p1) =>
        match readInt32 data p1 with
        | .error e => .error e
        | .ok (metadataId, p2) =>
          match lookupA metadataId st.classInfos with
          | Option.none => .error (.unknownClass metadataId)
          | some refClassInfo =>
            let ci := { refClassInfo with objectId := objectId }
            let st1 := { st with pos := p2, classInfos := setA objectId ci st.classInfos }
            match readMembers data fuel st1 ci with
            | .error e => .error e
            | .ok (st2, members) =>
              let record := NrbfRecord.classRec ⟨ci.name, objectId, members⟩
              .ok { st2 with
                    records := st2.records ++ [record],
                    objects := setA objectId (.recordVal record) st2.objects } := rfl

theorem readMembers_succ (data : List Nat) (fuel : Nat) (st : PState) (ci : ClassInfo) :
    readMembers data (fuel + 1) st ci =
      readMembersAux data fuel st ci
        (ci.memberNames.any fun n => n == "S4:V" || n == "S4:MV")
        (List.range ci.memberCount.toNat) [] := rfl

theorem readMembersAux_succ (data : List Nat) (fuel : Nat) (st : PState) (ci : ClassInfo)
    (hasStatMembers : Bool) (i : Nat) (rest : List Nat) (acc : List (String × Value)) :
    readMembersAux data (fuel + 1) st ci hasStatMembers (i :: rest) acc =
      (match (match ci.memberTypes[i]? with
              | some typeInfo =>
                readMemberValue data fuel st typeInfo
                  (hasStatMembers && ((ci.memberNames[i]?).getD "undefined" == "S4:V" ||
                    (ci.memberNames[i]?).getD "undefined" == "S4:MV"))
              | Option.none => readInlineValue data fuel st) with
       | .error e => .error e
       | .ok (st2, v) =>
         readMembersAux data fuel st2 ci hasStatMembers rest
           (((ci.memberNames[i]?).getD "undefined", v) :: acc)) := rfl

theorem readMembersAux_nil (data : List Nat) (fuel : Nat) (st : PState) (ci : ClassInfo)
    (hasStatMembers : Bool) (acc : List (String × Value)) :
    readMembersAux data (fuel + 1) st ci hasStatMembers [] acc = .ok (st, acc) := rfl

/-! ## C6: unknown record tag -/

/-- C6: when the record-dispatch loop reads a tag byte `k + 18` — any value
outside the recognized record types 0-17 — at a position inside the buffer,
the decode fails with the unknown-record-type error reporting exactly that
byte's offset; it neither skips the tag nor returns a truncated result. -/
theorem unknown_tag_fails_at_its_offset (data : List Nat) (fuel : Nat) (st : PState) (k : Nat)
    (hpos : st.pos < data.length) (hbyte : byteAt data st.pos = k + 18) :
    parseLoop data (fuel + 2) st = .error (.unknownRecordType (k + 18) st.pos) := by
  rw [parseLoop_succ, if_pos hpos]
  have hb : readByte data st.pos = .ok (k + 18, st.pos + 1) := by
    unfold readByte
    rw [if_pos (by omega), hbyte]
  rw [hb]
  dsimp only
  rw [if_neg (by omega)]
  rw [parseRecord_unknown data fuel { st with pos := st.pos + 1 } k]
  simp

/-- Witness for C6: tag byte 200 at offset 0. -/
theorem unknown_tag_fails_at_its_offset_witness :
    ((⟨0, [], [], [], []⟩ : PState).pos < ([200] : List Nat).length) ∧
    byteAt [200] (⟨0, [], [], [], []⟩ : PState).pos = 182 + 18 ∧
    parseLoop [200] 2 ⟨0, [], [], [], []⟩ = .error (.unknownRecordType 200 0) :=
  ⟨by decide, by decide,
    unknown_tag_fails_at_its_offset [200] 0 ⟨0, [], [], [], []⟩ 182 (by decide) (by decide)⟩

/-! ## C7: class-by-reference-to-existing-schema -/

/-- C7: a `ClassWithId` record reads a new object id and the originating
object id of a previously decoded schema; if no schema with that id has been
seen the decode fails with the unknown-class error, and otherwise the new
instance's members are decoded with exactly the referenced schema — same
member names, member types and class name verbatim, only the object id
replaced — and the produced record carries that schema's class name. -/
theorem classWithId_reuses_schema_verbatim (data : List Nat) (fuel : Nat) (st : PState)
    (h8 : st.pos + 8 ≤ data.length) :
    (lookupA (getInt32LE data (st.pos + 4)) st.classInfos = Option.none →
      parseClassWithId data (fuel + 1) st =
        .error (.unknownClass (getInt32LE data (st.pos + 4)))) ∧
    (∀ ci0, lookupA (getInt32LE data (st.pos + 4)) st.classInfos = some ci0 →
      ∀ st', parseClassWithId data (fuel + 1) st = .ok st' →
        ∃ st2 members,
          readMembers data fuel
            { st with
              pos := st.pos + 8,
              classInfos := setA (getInt32LE data st.pos)
                { ci0 with objectId := getInt32LE data st.pos } st.classInfos }
            { ci0 with objectId := getInt32LE data st.pos } = .ok (st2, members) ∧
          ({ ci0 with objectId := getInt32LE data st.pos } : ClassInfo).memberNames =
            ci0.memberNames ∧
          ({ ci0 with objectId := getInt32LE data st.pos } : ClassInfo).memberTypes =
            ci0.memberTypes ∧
          ({ ci0 with objectId := getInt32LE data st.pos } : ClassInfo).name = ci0.name ∧
          st'.records = st2.records ++
            [.classRec ⟨ci0.name, getInt32LE data st.pos, members⟩]) := by
  have h1 : readInt32 data st.pos = .ok (getInt32LE data st.pos, st.pos + 4) := by
    unfold readInt32
    rw [if_pos (by omega)]
  have h2 : readInt32 data (st.pos + 4) = .ok (getInt32LE data (st.pos + 4), st.pos + 4 + 4) := by
    unfold readInt32
    rw [if_pos (by omega)]
  constructor
  · intro hnone
    rw [parseClassWithId_succ, h1]
    dsimp only
    rw [h2]
    dsimp only
    rw [hnone]
  · intro ci0 hci st' hok
    rw [parseClassWithId_succ, h1] at hok
    dsimp only at hok
    rw [h2] at hok
    dsimp only at hok
    rw [hci] at hok
    dsimp only at hok
    have hpos : st.pos + 4 + 4 = st.pos + 8 := by omega
    rw [hpos] at hok
    cases hm : readMembers data fuel
        { st with
          pos := st.pos + 8,
          classInfos := setA (getInt32LE data st.pos)
            { ci0 with objectId := getInt32LE data st.pos } st.classInfos }
        { ci0 with objectId := getInt32LE data st.pos } with
    | error e => rw [hm] at hok; cases hok
    | ok r =>
      obtain ⟨st2, members⟩ := r
      rw [hm] at hok
      dsimp only at hok
      cases hok
      exact ⟨st2, members, rfl, rfl, rfl, rfl, rfl⟩

/-- Witness data for C7: object id 9 then metadata id 7, little-endian. -/
def c7Data : List Nat := [9, 0, 0, 0, 7, 0, 0, 0, 5, 0, 0, 0]

/-- Witness schema for C7: one member `m` of primitive type Int32. -/
def c7CI : ClassInfo := ⟨7, "K", 1, ["m"], [⟨0, .num 8⟩], Option.none, false⟩

/-- Witness state for C7: the schema table already holds `c7CI` under id 7. -/
def c7St : PState := ⟨0, [], [(7, c7CI)], [], []⟩

/-- Witness for C7. -/
theorem classWithId_reuses_schema_verbatim_witness :
    c7St.pos + 8 ≤ c7Data.length ∧
    ((lookupA (getInt32LE c7Data (c7St.pos + 4)) c7St.classInfos = Option.none →
        parseClassWithId c7Data (3 + 1) c7St =
          .error (.unknownClass (getInt32LE c7Data (c7St.pos + 4)))) ∧
      (∀ ci0, lookupA (getInt32LE c7Data (c7St.pos + 4)) c7St.classInfos = some ci0 →
        ∀ st', parseClassWithId c7Data (3 + 1) c7St = .ok st' →
          ∃ st2 members,
            readMembers c7Data 3
              { c7St with
                pos := c7St.pos + 8,
                classInfos := setA (getInt32LE c7Data c7St.pos)
                  { ci0 with objectId := getInt32LE c7Data c7St.pos } c7St.classInfos }
              { ci0 with objectId := getInt32LE c7Data c7St.pos } = .ok (st2, members) ∧
            ({ ci0 with objectId := getInt32LE c7Data c7St.pos } : ClassInfo).memberNames =
              ci0.memberNames ∧
            ({ ci0 with objectId := getInt32LE c7Data c7St.pos } : ClassInfo).memberTypes =
              ci0.memberTypes ∧
            ({ ci0 with objectId := getInt32LE c7Data c7St.pos } : ClassInfo).name =
              ci0.name ∧
            st'.records = st2.records ++
              [NrbfRecord.classRec ⟨ci0.name, getInt32LE c7Data c7St.pos, members⟩])) :=
  ⟨by decide, classWithId_reuses_schema_verbatim c7Data 3 c7St (by decide)⟩

/-! ## C5 amended: lazy, unvalidated reference resolution -/

/-- C5 as amended: the decoder stores reference markers inline without
consulting or validating the object map — `readInlineValue` on a
`MemberReference` tag produces `{reference: id}` unconditionally — and
resolving a member whose marker's target is absent from the ref map yields
`undefined` silently rather than an error. -/
theorem dangling_reference_resolves_to_undefined :
    (∀ (c : NrbfClass) (key : String) (id : Int) (refMap : List (Int × Value)),
      lookupS key c.members = some (.reference id) → lookupA id refMap = Option.none →
      getMember (.clsObj c) key refMap = .undefined) ∧
    (∀ (data : List Nat) (fuel : Nat) (st : PState),
      byteAt data st.pos = 9 → st.pos + 5 ≤ data.length →
      readInlineValue data (fuel + 1) st =
        .ok ({ st with pos := st.pos + 5 }, .reference (getInt32LE data (st.pos + 1)))) := by
  constructor
  · intro c key id refMap hkey hid
    cases c with
    | mk nm cid mem =>
      show (match lookupS key mem with
        | Option.none => Value.undefined
        | some value => _) = Value.undefined
      rw [show lookupS key mem = some (.reference id) from hkey]
      dsimp only
      rw [hid]
      rfl
  · intro data fuel st hbyte hlen
    have hb : readByte data st.pos = .ok (9, st.pos + 1) := by
      unfold readByte
      rw [if_pos (by omega), hbyte]
    have h32 : readInt32 data (st.pos + 1) =
        .ok (getInt32LE data (st.pos + 1), st.pos + 1 + 4) := by
      unfold readInt32
      rw [if_pos (by omega)]
    have e1 : readInlineValue data (fuel + 1) st =
        (parserStep data (parserFns data fuel)).readInlineValueF st := rfl
    rw [e1]
    dsimp only [parserStep]
    rw [hb]
    dsimp only
    rw [h32]

/-- Witness for the amended C5. -/
theorem dangling_reference_resolves_to_undefined_witness :
    getMember (.clsObj ⟨"B", 2, [("m", .reference 7)]⟩) "m" [] = .undefined ∧
    readInlineValue [9, 7, 0, 0, 0] 1 ⟨0, [], [], [], []⟩ =
      .ok (⟨5, [], [], [], []⟩, .reference 7) :=
  ⟨dangling_reference_resolves_to_undefined.1 ⟨"B", 2, [("m", .reference 7)]⟩ "m" 7 [] rfl
      rfl,
    by
      have h := dangling_reference_resolves_to_undefined.2 [9, 7, 0, 0, 0] 0
        ⟨0, [], [], [], []⟩ (by decide) (by decide)
      simpa using h⟩

/-! ## C2: offset tracking for stat-container members -/

/-- A successful `readMemberValue` of an Int32 member with tracking on
yields the tracked value read at the reader's position: the value is the
little-endian signed 32-bit integer at the recorded offset. -/
theorem readMemberValue_int32_tracked {data : List Nat} {fuel : Nat} {st st2 : PState}
    {v : Value} (h : readMemberValue data fuel st ⟨0, .num 8⟩ true = .ok (st2, v)) :
    v = .tracked (getInt32LE data st.pos) st.pos := by
  cases fuel with
  | zero => cases h
  | succ f =>
    have e1 : readMemberValue data (f + 1) st ⟨0, AdditionalInfo.num 8⟩ true =
        match readPrimitive data st.pos 8 true with
        | .error e => .error e
        | .ok (v, p) => .ok ({ st with pos := p }, v) := rfl
    rw [e1] at h
    cases h32 : readInt32 data st.pos with
    | error e =>
      have e2 : readPrimitive data st.pos 8 true = .error e := by
        have e3 : readPrimitive data st.pos 8 true = Except.bind (readInt32 data st.pos)
            (fun vp => match vp with | (v, p) => Except.ok (Value.tracked v st.pos, p)) := rfl
        rw [e3, h32]
        rfl
      rw [e2] at h
      cases h
    | ok vp =>
      obtain ⟨v0, p0⟩ := vp
      have hv0 : v0 = getInt32LE data st.pos := by
        unfold readInt32 at h32
        split at h32
        · cases h32; rfl
        · cases h32
      have e2 : readPrimitive data st.pos 8 true = .ok (Value.tracked v0 st.pos, p0) := by
        have e3 : readPrimitive data st.pos 8 true = Except.bind (readInt32 data st.pos)
            (fun vp => match vp with | (v, p) => Except.ok (Value.tracked v st.pos, p)) := rfl
        rw [e3, h32]
        rfl
      rw [e2] at h
      dsimp only at h
      cases h
      rw [hv0]

/-- The member loop never adds a binding for a name carried by none of the
processed indices, so the lookup stays what it was in the accumulator. -/
theorem readMembersAux_lookup_untouched (data : List Nat) (nm : String) :
    ∀ (idxs : List Nat) (fuel : Nat) (st : PState) (ci : ClassInfo) (hasStat : Bool)
      (acc : List (String × Value)) (st' : PState) (members : List (String × Value)),
    readMembersAux data fuel st ci hasStat idxs acc = .ok (st', members) →
    (∀ j ∈ idxs, (ci.memberNames[j]?).getD "undefined" ≠ nm) →
    lookupS nm members = lookupS nm acc := by
  intro idxs
  induction idxs with
  | nil =>
    intro fuel st ci hasStat acc st' members h _
    cases fuel with
    | zero => cases h
    | succ f => rw [readMembersAux_nil] at h; cases h; rfl
  | cons j rest ih =>
    intro fuel st ci hasStat acc st' members h hnm
    cases fuel with
    | zero => cases h
    | succ f =>
      rw [readMembersAux_succ] at h
      cases hstep : (match ci.memberTypes[j]? with
          | some typeInfo =>
            readMemberValue data f st typeInfo
              (hasStat && ((ci.memberNames[j]?).getD "undefined" == "S4:V" ||
                (ci.memberNames[j]?).getD "undefined" == "S4:MV"))
          | Option.none => readInlineValue data f st) with
      | error e => rw [hstep] at h; cases h
      | ok sv =>
        obtain ⟨st2, v⟩ := sv
        rw [hstep] at h
        dsimp only at h
        have hrec := ih f st2 ci hasStat (((ci.memberNames[j]?).getD "undefined", v) :: acc)
          st' members h (fun j' hj' => hnm j' (List.mem_cons_of_mem _ hj'))
        rw [hrec]
        have hne : nm ≠ (ci.memberNames[j]?).getD "undefined" := fun he =>
          hnm j (List.mem_cons_self _ _) he.symm
        show (if nm = (ci.memberNames[j]?).getD "undefined" then some v
          else lookupS nm acc) = lookupS nm acc
        rw [if_neg hne]

/-- Loop-level statement of C2: if the index list contains exactly one index
carrying the stat name, that member is `Int32` typed, and the loop succeeds
with tracking enabled, the produced member map binds the name to a tracked
value equal to the little-endian int32 of the buffer at the recorded
absolute offset. -/
theorem readMembersAux_tracked (data : List Nat) (nm : String)
    (hnm : nm = "S4:V" ∨ nm = "S4:MV") :
    ∀ (idxs : List Nat) (fuel : Nat) (st : PState) (ci : ClassInfo)
      (acc : List (String × Value)) (st' : PState) (members : List (String × Value)) (i : Nat),
    readMembersAux data fuel st ci true idxs acc = .ok (st', members) →
    idxs.Nodup →
    i ∈ idxs →
    ci.memberNames[i]? = some nm →
    ci.memberTypes[i]? = some ⟨0, .num 8⟩ →
    (∀ j ∈ idxs, j ≠ i → (ci.memberNames[j]?).getD "undefined" ≠ nm) →
    ∃ o, lookupS nm members = some (.tracked (getInt32LE data o) o) := by
  intro idxs
  induction idxs with
  | nil =>
    intro fuel st ci acc st' members i _ _ hmem
    exact absurd hmem (List.not_mem_nil i)
  | cons j rest ih =>
    intro fuel st ci acc st' members i h hnodup hmem hname htype huniq
    cases fuel with
    | zero => cases h
    | succ f =>
      rw [readMembersAux_succ] at h
      by_cases hji : j = i
      · subst hji
        have hmn : (ci.memberNames[j]?).getD "undefined" = nm := by rw [hname]; rfl
        rw [htype, hmn] at h
        dsimp only at h
        have htr : (true && (nm == "S4:V" || nm == "S4:MV")) = true := by
          rcases hnm with rfl | rfl <;> rfl
        rw [htr] at h
        cases hstep : readMemberValue data f st ⟨0, .num 8⟩ true with
        | error e => rw [hstep] at h; cases h
        | ok sv =>
          obtain ⟨st2, v⟩ := sv
          rw [hstep] at h
          dsimp only at h
          have hv := readMemberValue_int32_tracked hstep
          have hrest : ∀ j' ∈ rest, (ci.memberNames[j']?).getD "undefined" ≠ nm := by
            intro j' hj'
            have hne : j' ≠ j := fun he => (List.nodup_cons.mp hnodup).1 (he ▸ hj')
            exact huniq j' (List.mem_cons_of_mem _ hj') hne
          have hfrozen := readMembersAux_lookup_untouched data nm rest f st2 ci true
            ((nm, v) :: acc) st' members h hrest
          refine ⟨st.pos, ?_⟩
          rw [hfrozen]
          show (if nm = nm then some v else lookupS nm acc) =
            some (.tracked (getInt32LE data st.pos) st.pos)
          rw [if_pos rfl, hv]
      · cases hstep : (match ci.memberTypes[j]? with
            | some typeInfo =>
              readMemberValue data f st typeInfo
                (true && ((ci.memberNames[j]?).getD "undefined" == "S4:V" ||
                  (ci.memberNames[j]?).getD "undefined" == "S4:MV"))
            | Option.none => readInlineValue data f st) with
        | error e => rw [hstep] at h; cases h
        | ok sv =>
          obtain ⟨st2, v⟩ := sv
          rw [hstep] at h
          dsimp only at h
          have hmem' : i ∈ rest := by
            rcases List.mem_cons.mp hmem with he | hr
            · exact absurd he.symm hji
            · exact hr
          exact ih f st2 ci (((ci.memberNames[j]?).getD "undefined", v) :: acc) st' members i
            h (List.nodup_cons.mp hnodup).2 hmem' hname htype
            (fun j' hj' hne => huniq j' (List.mem_cons_of_mem _ hj') hne)

/-- C2: whenever `readMembers` succeeds on a class whose member-name list
carries `S4:V` or `S4:MV` at exactly one index `i`, with an `Int32` type
descriptor there, the decoded member map binds that name to a tracked value
whose recorded offset `o` is the absolute position of the first of the four
bytes it was decoded from: the value equals the little-endian signed 32-bit
integer read at offset `o` of the same buffer.  (Tracking is enabled for
exactly these member names — `hasStatMembers` holds because the name is in
the member-name set.) -/
theorem readMembers_tracks_stat_offset (data : List Nat) (fuel : Nat) (st : PState)
    (ci : ClassInfo) (st' : PState) (members : List (String × Value)) (i : Nat) (nm : String)
    (hok : readMembers data (fuel + 1) st ci = .ok (st', members))
    (hnm : nm = "S4:V" ∨ nm = "S4:MV")
    (hname : ci.memberNames[i]? = some nm)
    (htype : ci.memberTypes[i]? = some ⟨0, .num 8⟩)
    (hi : i < ci.memberCount.toNat)
    (huniq : ∀ j, j < ci.memberCount.toNat → j ≠ i →
      (ci.memberNames[j]?).getD "undefined" ≠ nm) :
    ∃ o, lookupS nm members = some (.tracked (getInt32LE data o) o) := by
  rw [readMembers_succ] at hok
  have hstat : (ci.memberNames.any fun n => n == "S4:V" || n == "S4:MV") = true := by
    refine List.any_eq_true.mpr ⟨nm, List.getElem?_mem hname, ?_⟩
    rcases hnm with rfl | rfl <;> rfl
  rw [hstat] at hok
  exact readMembersAux_tracked data nm hnm (List.range ci.memberCount.toNat) fuel st ci []
    st' members i hok (List.nodup_range _) (List.mem_range.mpr hi) hname htype
    (fun j hj hne => huniq j (List.mem_range.mp hj) hne)

/-- Witness buffer for C2: eight bytes holding int32 20 at offset 0 and
int32 30 at offset 4. -/
def c2Data : List Nat := [20, 0, 0, 0, 30, 0, 0, 0]

/-- Witness schema for C2: the stat container `SK` with members `S4:V` and
`S4:MV`, both Int32. -/
def c2CI : ClassInfo :=
  ⟨4, "SK", 2, ["S4:V", "S4:MV"], [⟨0, .num 8⟩, ⟨0, .num 8⟩], Option.none, false⟩

/-- Witness for C2. -/
theorem readMembers_tracks_stat_offset_witness :
    readMembers c2Data (5 + 1) ⟨0, [], [], [], []⟩ c2CI =
      .ok (⟨8, [], [], [], []⟩, [("S4:MV", .tracked 30 4), ("S4:V", .tracked 20 0)]) ∧
    ("S4:V" = "S4:V" ∨ ("S4:V" : String) = "S4:MV") ∧
    c2CI.memberNames[0]? = some "S4:V" ∧
    c2CI.memberTypes[0]? = some ⟨0, .num 8⟩ ∧
    0 < c2CI.memberCount.toNat ∧
    (∀ j, j < c2CI.memberCount.toNat → j ≠ 0 →
      (c2CI.memberNames[j]?).getD "undefined" ≠ "S4:V") ∧
    (∃ o, lookupS "S4:V" [("S4:MV", Value.tracked 30 4), ("S4:V", Value.tracked 20 0)] =
      some (.tracked (getInt32LE c2Data o) o)) :=
  ⟨rfl, Or.inl rfl, rfl, rfl, by decide, by decide,
    readMembers_tracks_stat_offset c2Data 5 ⟨0, [], [], [], []⟩ c2CI ⟨8, [], [], [], []⟩
      [("S4:MV", .tracked 30 4), ("S4:V", .tracked 20 0)] 0 "S4:V" rfl (Or.inl rfl) rfl rfl
      (by decide) (by decide)⟩

end Underrail
